import Mathlib

/-!
Verification development for the asynchronous batch job engine of the
`vibe-cv` repository.

The Go sources embedded here are:
- `internal/batch/queue.go` — `JobQueue`, `CreateJob`, `AddJobItem`,
  `ProcessJob`, `GetBatchJobStatus`, `worker`/`Start`;
- `internal/db/models.go` — the `Repository` rows and row-update operations
  (`CreateBatchJob`, `UpdateBatchJobStatus`, `CreateBatchJobItem`,
  `GetBatchJobItems`, `UpdateBatchJobItem`, `GetCV`);
- `internal/security/middleware.go` — `RateLimiter`, `NewRateLimiter`,
  `Allow`, `cleanupOldBuckets`, `minFloat`.

Modelling conventions:
- The SQL store is a record of in-memory lists; each `Repository` method
  becomes a pure function on it.  Timestamp columns that no claim reads are
  dropped; `completed_at` is kept as `Option Unit` (null vs non-null).
- Fallible store writes and the LLM provider are modelled by an `Env`
  record of fault-injection knobs: a `false` knob means the corresponding
  database call returns an error (and performs no write), mirroring a
  failed `Exec`/`QueryRow`.  The provider (`q.provider`, set through
  `SetProvider`) is carried in `Env` as its value at call time; `none`
  models a provider error for that input.
- `float64` quantities of the rate limiter (tokens, rate, seconds) are
  modelled as `ℚ`; wall-clock instants are explicit `ℚ` arguments.
-/

namespace VibeCV

/-- Job / item status strings (`pending, processing, completed, failed`). -/
inductive Status where
  | pending
  | processing
  | completed
  | failed
deriving DecidableEq, Repr, Fintype

/-- `status == "completed" || status == "failed"` as used in
`Repository.UpdateBatchJobStatus`. -/
def Status.isTerminal (s : Status) : Bool :=
  s == .completed || s == .failed

/-- Result of a successful `Provider.Customize` call (the fields the batch
loop stores: match score, modifications, modified CV). -/
structure ProviderResult where
  matchScore : Int
  modifications : List String
  modifiedCV : String
deriving DecidableEq, Repr

/-- `db.BatchJob` row (timestamps other than `completed_at` omitted). -/
structure BatchJob where
  id : Nat
  identityID : Option Nat
  status : Status
  totalItems : Nat
  completedItems : Nat
  completedAt : Option Unit
deriving DecidableEq, Repr

/-- `db.BatchJobItem` row (timestamps omitted). -/
structure BatchJobItem where
  id : Nat
  batchJobID : Nat
  cvID : Option Nat
  jobDescription : String
  status : Status
  result : Option ProviderResult
  errorMessage : Option String
deriving DecidableEq, Repr

/-- `db.CV` row (only the fields the batch loop reads). -/
structure CV where
  id : Nat
  originalText : String
deriving DecidableEq, Repr

/-- The durable store: the `batch_jobs`, `batch_job_items` and `cvs` tables
plus the id sequences. -/
structure Store where
  jobs : List BatchJob
  items : List BatchJobItem
  cvs : List CV
  nextJobID : Nat
  nextItemID : Nat
deriving DecidableEq, Repr

/-- `Repository.GetBatchJob`: `SELECT … FROM batch_jobs WHERE id = $1`. -/
def Store.getBatchJob (s : Store) (id : Nat) : Option BatchJob :=
  s.jobs.find? (fun j => j.id == id)

/-- `Repository.GetBatchJobItems`: `SELECT … FROM batch_job_items WHERE
batch_job_id = $1`, in store order. -/
def Store.getBatchJobItems (s : Store) (batchJobID : Nat) : List BatchJobItem :=
  s.items.filter (fun it => it.batchJobID == batchJobID)

/-- `Repository.GetCV`: `SELECT … FROM cvs WHERE id = $1`; `none` models
`sql.ErrNoRows` / a failed row fetch. -/
def Store.getCV (s : Store) (id : Nat) : Option CV :=
  s.cvs.find? (fun cv => cv.id == id)

/-- The row update performed by `Repository.UpdateBatchJobStatus` on each
matching row: set `status` and `completed_items`, and additionally set
`completed_at = CURRENT_TIMESTAMP` when the new status is `completed` or
`failed` (it is left unchanged otherwise). -/
def updateJobRow (id : Nat) (status : Status) (completedItems : Nat)
    (j : BatchJob) : BatchJob :=
  if j.id == id then
    { j with
      status := status
      completedItems := completedItems
      completedAt := if status.isTerminal then some () else j.completedAt }
  else j

/-- `Repository.UpdateBatchJobStatus`. -/
def Store.updateBatchJobStatus (s : Store) (id : Nat) (status : Status)
    (completedItems : Nat) : Store :=
  { s with jobs := s.jobs.map (updateJobRow id status completedItems) }

/-- The row update performed by `Repository.UpdateBatchJobItem`: set
`status`, `result` and `error_message` on each matching row. -/
def updateItemRow (id : Nat) (status : Status) (result : Option ProviderResult)
    (errorMessage : Option String) (it : BatchJobItem) : BatchJobItem :=
  if it.id == id then
    { it with status := status, result := result, errorMessage := errorMessage }
  else it

/-- `Repository.UpdateBatchJobItem`. -/
def Store.updateBatchJobItem (s : Store) (id : Nat) (status : Status)
    (result : Option ProviderResult) (errorMessage : Option String) : Store :=
  { s with items := s.items.map (updateItemRow id status result errorMessage) }

/-- `Repository.CreateBatchJob`: inserts a `pending` job with
`completed_items = 0`, returning the fresh row. -/
def Store.createBatchJob (s : Store) (identityID : Option Nat)
    (totalItems : Nat) : Store × BatchJob :=
  let job : BatchJob :=
    { id := s.nextJobID
      identityID := identityID
      status := .pending
      totalItems := totalItems
      completedItems := 0
      completedAt := none }
  ({ s with jobs := s.jobs ++ [job], nextJobID := s.nextJobID + 1 }, job)

/-- `Repository.CreateBatchJobItem`: inserts a `pending` item. -/
def Store.createBatchJobItem (s : Store) (batchJobID : Nat) (cvID : Option Nat)
    (jobDescription : String) : Store × BatchJobItem :=
  let item : BatchJobItem :=
    { id := s.nextItemID
      batchJobID := batchJobID
      cvID := cvID
      jobDescription := jobDescription
      status := .pending
      result := none
      errorMessage := none }
  ({ s with items := s.items ++ [item], nextItemID := s.nextItemID + 1 }, item)

/-- `llm.Provider.Customize` restricted to the arguments the batch loop
passes: CV text and job description.  `none` models a provider error. -/
def Provider := String → String → Option ProviderResult

/-- Call environment for one engine operation: the queue's provider at call
time (`q.provider`), plus fault-injection knobs for the fallible store
calls.  A `false` knob means that database call returns an error and writes
nothing. -/
structure Env where
  provider : Option Provider
  createJobOk : Bool
  createItemOk : Bool
  getItemsOk : Bool
  updateJobOk : Nat → Status → Bool
  updateItemOk : Nat → Status → Bool

/-- The `cvText` resolution at the top of the item loop in `ProcessJob`:
items without a `cv_id` use the empty string; otherwise `GetCV` is called
and a failed fetch (no such row) yields `none`. -/
def getCVText (s : Store) (it : BatchJobItem) : Option String :=
  match it.cvID with
  | none => some ""
  | some c => (s.getCV c).map (fun cv => cv.originalText)

/-- Whether one item would be processed end-to-end successfully against
store `s`: its CV text resolves and the provider accepts it. -/
def itemSucceeds (p : Provider) (s : Store) (it : BatchJobItem) : Bool :=
  match getCVText s it with
  | none => false
  | some t => (p t it.jobDescription).isSome

/-- The terminal status `ProcessJob` writes for an item when no store write
fails: `completed` on provider success, `failed` otherwise. -/
def itemOutcome (p : Provider) (s : Store) (it : BatchJobItem) : Status :=
  if itemSucceeds p s it then .completed else .failed

/-- The per-item loop of `JobQueue.ProcessJob` (lines 128–165 of
`queue.go`): resolve CV text (failed lookup marks the item `failed` and
continues), call the provider (error marks the item `failed` and
continues), and on success write the result marking the item `completed`;
if that write errors, mark the job `failed` with the running counter and
return the error.  Errors of the `failed`-marking writes are discarded by
the Go code, which the `Env` knobs reproduce: a failing write leaves the
store unchanged. -/
def processItems (env : Env) (p : Provider) (jobID : Nat) :
    Store → List BatchJobItem → Nat → Store × Nat × Option String
  | s, [], completedCount => (s, completedCount, none)
  | s, item :: rest, completedCount =>
    match getCVText s item with
    | none =>
      let s1 := if env.updateItemOk item.id .failed
                then s.updateBatchJobItem item.id .failed none none else s
      processItems env p jobID s1 rest completedCount
    | some cvText =>
      match p cvText item.jobDescription with
      | none =>
        let s1 := if env.updateItemOk item.id .failed
                  then s.updateBatchJobItem item.id .failed none none else s
        processItems env p jobID s1 rest completedCount
      | some result =>
        if env.updateItemOk item.id .completed then
          processItems env p jobID
            (s.updateBatchJobItem item.id .completed (some result) none)
            rest (completedCount + 1)
        else
          let s1 := if env.updateJobOk jobID .failed
                    then s.updateBatchJobStatus jobID .failed completedCount else s
          (s1, completedCount, some "update item failed")

/-- `JobQueue.ProcessJob` after its first store write has succeeded (the
job is already marked `processing`): provider check, item fetch, item loop,
and the final `completed` mark.  Split out so the worker model can observe
the `processing` window. -/
def processJobRest (env : Env) (s : Store) (jobID : Nat) : Store × Option String :=
  match env.provider with
  | none =>
    let s1 := if env.updateJobOk jobID .failed
              then s.updateBatchJobStatus jobID .failed 0 else s
    (s1, some "LLM provider not set for batch processing")
  | some p =>
    if env.getItemsOk then
      match processItems env p jobID s (s.getBatchJobItems jobID) 0 with
      | (s1, completedCount, none) =>
        if env.updateJobOk jobID .completed then
          (s1.updateBatchJobStatus jobID .completed completedCount, none)
        else (s1, some "update job status failed")
      | (s1, _, some e) => (s1, some e)
    else
      let s1 := if env.updateJobOk jobID .failed
                then s.updateBatchJobStatus jobID .failed 0 else s
      (s1, some "get batch job items failed")

/-- `JobQueue.ProcessJob` (queue.go lines 99–169). -/
def processJob (env : Env) (s : Store) (jobID : Nat) : Store × Option String :=
  if env.updateJobOk jobID .processing then
    processJobRest env (s.updateBatchJobStatus jobID .processing 0) jobID
  else (s, some "update job status failed")

/-- `JobQueue` state visible to the claims: the store and the bounded
dispatch channel (`jobChan`, capacity 100 in `NewJobQueue`). -/
structure JobQueue where
  store : Store
  jobChan : List Nat
  jobChanCap : Nat

/-- `JobQueue.CreateJob`: persist a `pending` job, then attempt a
non-blocking send of the job id (`select … default:` drops the send when
the channel is full), and return the id with a nil error. -/
def createJob (env : Env) (q : JobQueue) (identityID : Option Nat)
    (totalItems : Nat) : JobQueue × Nat × Option String :=
  if env.createJobOk then
    let (s1, job) := q.store.createBatchJob identityID totalItems
    let chan1 := if q.jobChan.length < q.jobChanCap
                 then q.jobChan ++ [job.id] else q.jobChan
    ({ q with store := s1, jobChan := chan1 }, job.id, none)
  else (q, 0, some "create batch job failed")

/-- `JobQueue.AddJobItem`. -/
def addJobItem (env : Env) (q : JobQueue) (batchJobID : Nat)
    (cvID : Option Nat) (jobDescription : String) :
    JobQueue × Nat × Option String :=
  if env.createItemOk then
    let (s1, item) := q.store.createBatchJobItem batchJobID cvID jobDescription
    ({ q with store := s1 }, item.id, none)
  else (q, 0, some "create batch job item failed")

/-- The status report assembled by `JobQueue.GetBatchJobStatus`
(`progress`, a `float64` in Go, is modelled as `ℚ`). -/
structure JobStatusReport where
  jobId : Nat
  status : Status
  total : Nat
  completed : Nat
  progress : ℚ
deriving DecidableEq, Repr

/-- `JobQueue.GetBatchJobStatus` (queue.go lines 172–208): read the job
row, fetch its items, count items whose status is `completed`, and derive
`progress = completed/total` with `0.0` for an empty item list. -/
def getBatchJobStatus (env : Env) (s : Store) (jobID : Nat) :
    Option JobStatusReport :=
  match s.getBatchJob jobID with
  | none => none
  | some job =>
    if env.getItemsOk then
      let items := s.getBatchJobItems jobID
      let completedCount := (items.filter (fun it => it.status == .completed)).length
      let progress : ℚ :=
        if 0 < items.length then (completedCount : ℚ) / (items.length : ℚ) else 0
      some { jobId := job.id
             status := job.status
             total := items.length
             completed := completedCount
             progress := progress }
    else none

/-- One invocation of a public engine operation, carrying its call
environment (provider value and store fault pattern at that moment). -/
inductive Op where
  | createJob (env : Env) (identityID : Option Nat) (totalItems : Nat)
  | addJobItem (env : Env) (batchJobID : Nat) (cvID : Option Nat)
      (jobDescription : String)
  | processJob (env : Env) (jobID : Nat)
  | getStatus (env : Env) (jobID : Nat)

/-- Effect of one engine operation on the queue state (`GetBatchJobStatus`
is read-only; `ProcessJob` touches only the store). -/
def applyOp (q : JobQueue) : Op → JobQueue
  | .createJob env iid n => (createJob env q iid n).1
  | .addJobItem env b c d => (addJobItem env q b c d).1
  | .processJob env j => { q with store := (processJob env q.store j).1 }
  | .getStatus _ _ => q

/-- Run a sequence of engine operations. -/
def runOps (q : JobQueue) (ops : List Op) : JobQueue :=
  ops.foldl applyOp q

/-- The empty store (id sequences start at 1, as the database does). -/
def emptyStore : Store :=
  { jobs := [], items := [], cvs := [], nextJobID := 1, nextItemID := 1 }

/-- A fresh `JobQueue` as built by `NewJobQueue` (channel capacity 100). -/
def initialQueue : JobQueue :=
  { store := emptyStore, jobChan := [], jobChanCap := 100 }

/-- Status of the first job row with the given id, if any. -/
def jobStatusIn (s : Store) (id : Nat) : Option Status :=
  (s.getBatchJob id).map (fun j => j.status)

/-- `completed_items` of the first job row with the given id, if any. -/
def jobCompletedItemsIn (s : Store) (id : Nat) : Option Nat :=
  (s.getBatchJob id).map (fun j => j.completedItems)

/-- `completed_at` of the first job row with the given id, if any. -/
def jobCompletedAtIn (s : Store) (id : Nat) : Option (Option Unit) :=
  (s.getBatchJob id).map (fun j => j.completedAt)

/-- Status of the first item row with the given id, if any. -/
def itemStatusIn (s : Store) (id : Nat) : Option Status :=
  (s.items.find? (fun it => it.id == id)).map (fun it => it.status)

/-! ### Rate limiter (`internal/security/middleware.go`) -/

/-- `security.TokenBucket` (the redundant `ip` field is dropped). -/
structure TokenBucket where
  tokens : ℚ
  lastRefill : ℚ
deriving DecidableEq, Repr

/-- `security.RateLimiter`; the Go `map[string]*TokenBucket` is modelled as
a function into `Option TokenBucket`. -/
structure RateLimiter where
  buckets : String → Option TokenBucket
  rps : ℚ
  burst : Int
  cleanup : ℚ
  lastGC : ℚ

/-- `security.NewRateLimiter` at wall-clock instant `now` (`cleanup` is one
hour; `lastGC := time.Now()`). -/
def newRateLimiter (requestsPerSecond : ℚ) (burst : Int) (now : ℚ) : RateLimiter :=
  { buckets := fun _ => none
    rps := requestsPerSecond
    burst := burst
    cleanup := 3600
    lastGC := now }

/-- `security.minFloat`. -/
def minFloat (a b : ℚ) : ℚ :=
  if a < b then a else b

/-- `RateLimiter.cleanupOldBuckets`: delete buckets whose `lastRefill` is
strictly before `now - cleanup`. -/
def RateLimiter.cleanupOldBuckets (rl : RateLimiter) (now : ℚ) : RateLimiter :=
  { rl with buckets := fun k =>
      match rl.buckets k with
      | some b => if b.lastRefill < now - rl.cleanup then none else some b
      | none => none }

/-- The opportunistic sweep at the top of `Allow`: when more than the
retention window has elapsed since `lastGC`, delete stale buckets and reset
`lastGC`. -/
def RateLimiter.sweep (rl : RateLimiter) (now : ℚ) : RateLimiter :=
  if rl.cleanup < now - rl.lastGC
  then { rl.cleanupOldBuckets now with lastGC := now } else rl

/-- Bucket lookup in `Allow`: a missing client gets a fresh bucket with the
full burst (`lastRefill := now`). -/
def RateLimiter.getBucket (rl : RateLimiter) (ip : String) (now : ℚ) :
    TokenBucket :=
  match rl.buckets ip with
  | some b => b
  | none => { tokens := (rl.burst : ℚ), lastRefill := now }

/-- The refill step of `Allow`: add `elapsed × rate` tokens, capped at the
burst capacity (`minFloat(float64(rl.burst), …)`). -/
def RateLimiter.refillTokens (rl : RateLimiter) (bucket : TokenBucket)
    (now : ℚ) : ℚ :=
  minFloat (rl.burst : ℚ) (bucket.tokens + (now - bucket.lastRefill) * rl.rps)

/-- Writing the mutated bucket back into the map (`rl.buckets[ip] = bucket`
followed by the in-place mutation in the Go code). -/
def RateLimiter.setBucket (rl : RateLimiter) (ip : String) (b : TokenBucket) :
    RateLimiter :=
  { rl with buckets := fun k => if k == ip then some b else rl.buckets k }

/-- `RateLimiter.Allow` at wall-clock instant `now`: opportunistic sweep
(at most once per retention window), lazy bucket creation with a full
burst, refill by `elapsed × rate` capped at `burst`, then admit and
decrement when at least one token is available.  The bucket's `lastRefill`
is set to `now` in either case. -/
def RateLimiter.allow (rl : RateLimiter) (ip : String) (now : ℚ) :
    RateLimiter × Bool :=
  let rl1 := rl.sweep now
  let tokens := rl1.refillTokens (rl1.getBucket ip now) now
  if 1 ≤ tokens then
    (rl1.setBucket ip { tokens := tokens - 1, lastRefill := now }, true)
  else
    (rl1.setBucket ip { tokens := tokens, lastRefill := now }, false)

/-- `n` consecutive `Allow` calls for the same client at the same instant,
returning the final limiter and the list of verdicts in call order. -/
def RateLimiter.allowN (rl : RateLimiter) (ip : String) (now : ℚ) :
    Nat → RateLimiter × List Bool
  | 0 => (rl, [])
  | n + 1 =>
    let r1 := rl.allow ip now
    let r2 := r1.1.allowN ip now n
    (r2.1, r1.2 :: r2.2)

/-- Token-range invariant of the limiter map at wall-clock instant `now`:
every bucket holds between 0 and `burst` tokens and was last refilled no
later than `now`. -/
def BucketInv (rl : RateLimiter) (now : ℚ) : Prop :=
  ∀ k b, rl.buckets k = some b →
    0 ≤ b.tokens ∧ b.tokens ≤ (rl.burst : ℚ) ∧ b.lastRefill ≤ now

/-! ### Worker pool (`Start`/`worker` in queue.go)

The worker pool is modelled as a small-step transition system.  Each
`worker` goroutine is either idle (blocked on `jobChan`) or busy with one
job.  Receiving a job id and running the first store write of `ProcessJob`
(which makes the job visible as `processing`) is one atomic step; the rest
of `ProcessJob` is a second atomic step, so states in which several jobs
are simultaneously `processing` are observable, as they are in the Go
program while workers are inside the item loop. -/

/-- One worker goroutine: blocked on the channel, or driving one job. -/
inductive WorkerState where
  | idle
  | busy (jobID : Nat) (env : Env)

/-- Whole-engine state: the queue (store + channel) and the worker pool. -/
structure EngineState where
  q : JobQueue
  workers : List WorkerState

/-- Engine right after `NewJobQueue` + `Start()` with `n` workers. -/
def startEngine (n : Nat) : EngineState :=
  { q := initialQueue, workers := List.replicate n .idle }

/-- Small-step transitions of the running engine. -/
inductive EngineStep : EngineState → EngineState → Prop where
  | createJob (s : EngineState) (env : Env) (identityID : Option Nat)
      (totalItems : Nat) :
      EngineStep s ⟨(createJob env s.q identityID totalItems).1, s.workers⟩
  | addJobItem (s : EngineState) (env : Env) (batchJobID : Nat)
      (cvID : Option Nat) (jobDescription : String) :
      EngineStep s ⟨(addJobItem env s.q batchJobID cvID jobDescription).1, s.workers⟩
  | pickup (s : EngineState) (k : Nat) (env : Env) (jobID : Nat)
      (rest : List Nat) :
      s.workers.get? k = some .idle →
      s.q.jobChan = jobID :: rest →
      env.updateJobOk jobID .processing = true →
      EngineStep s
        ⟨{ s.q with jobChan := rest
                    store := s.q.store.updateBatchJobStatus jobID .processing 0 },
          s.workers.set k (.busy jobID env)⟩
  | pickupFail (s : EngineState) (k : Nat) (env : Env) (jobID : Nat)
      (rest : List Nat) :
      s.workers.get? k = some .idle →
      s.q.jobChan = jobID :: rest →
      env.updateJobOk jobID .processing = false →
      EngineStep s ⟨{ s.q with jobChan := rest }, s.workers⟩
  | finish (s : EngineState) (k : Nat) (env : Env) (jobID : Nat) :
      s.workers.get? k = some (.busy jobID env) →
      EngineStep s
        ⟨{ s.q with store := (processJobRest env s.q.store jobID).1 },
          s.workers.set k .idle⟩

/-- States reachable by the engine started with `n` workers. -/
def EngineReachable (n : Nat) (s : EngineState) : Prop :=
  Relation.ReflTransGen EngineStep (startEngine n) s

/-- Number of job rows currently in status `processing`. -/
def countProcessing (s : Store) : Nat :=
  (s.jobs.filter (fun j => j.status == .processing)).length

/-- Job ids currently being driven by some worker. -/
def activeJobs (s : EngineState) : List Nat :=
  s.workers.filterMap (fun w =>
    match w with
    | .busy j _ => some j
    | .idle => none)

/-! ### Basic facts about the store operations -/

theorem updateItemRow_id (i : Nat) (st : Status) (r : Option ProviderResult)
    (e : Option String) (it : BatchJobItem) :
    (updateItemRow i st r e it).id = it.id := by
  unfold updateItemRow
  split <;> rfl

theorem updateJobRow_id (i : Nat) (st : Status) (c : Nat) (j : BatchJob) :
    (updateJobRow i st c j).id = j.id := by
  unfold updateJobRow
  split <;> rfl

theorem find?_map_fix {α : Type} (f : α → α) (p : α → Bool)
    (hf : ∀ a, p (f a) = p a) (l : List α) :
    (l.map f).find? p = (l.find? p).map f := by
  rw [List.find?_map, show p ∘ f = p from funext hf]

theorem itemStatusIn_updateBatchJobItem (s : Store) (i : Nat) (st : Status)
    (r : Option ProviderResult) (e : Option String) (id : Nat) :
    itemStatusIn (s.updateBatchJobItem i st r e) id =
      (s.items.find? (fun it => it.id == id)).map
        (fun it => if it.id == i then st else it.status) := by
  unfold itemStatusIn Store.updateBatchJobItem
  rw [find?_map_fix (updateItemRow i st r e) (fun it => it.id == id)
      (fun a => by
        show ((updateItemRow i st r e a).id == id) = (a.id == id)
        rw [updateItemRow_id]) s.items]
  rw [Option.map_map]
  cases hf : s.items.find? (fun it => it.id == id) with
  | none => rfl
  | some a =>
    simp only [Option.map_some', Function.comp_apply]
    unfold updateItemRow
    split <;> rfl

theorem itemStatusIn_updateBatchJobItem_self (s : Store) (i : Nat) (st : Status)
    (r : Option ProviderResult) (e : Option String)
    (h : (itemStatusIn s i).isSome = true) :
    itemStatusIn (s.updateBatchJobItem i st r e) i = some st := by
  rw [itemStatusIn_updateBatchJobItem]
  unfold itemStatusIn at h
  cases hf : s.items.find? (fun it => it.id == i) with
  | none => rw [hf] at h; simp at h
  | some a =>
    have ha := List.find?_some hf
    simp only [beq_iff_eq] at ha
    simp [ha]

theorem itemStatusIn_updateBatchJobItem_other (s : Store) (i : Nat) (st : Status)
    (r : Option ProviderResult) (e : Option String) (id : Nat) (hne : ¬ i = id) :
    itemStatusIn (s.updateBatchJobItem i st r e) id = itemStatusIn s id := by
  rw [itemStatusIn_updateBatchJobItem]
  unfold itemStatusIn
  cases hf : s.items.find? (fun it => it.id == id) with
  | none => rfl
  | some a =>
    have ha := List.find?_some hf
    simp only [beq_iff_eq] at ha
    have hne' : ¬ a.id = i := by rw [ha]; exact fun hh => hne hh.symm
    simp [hne']

theorem itemStatusIn_updateBatchJobItem_isSome (s : Store) (i : Nat) (st : Status)
    (r : Option ProviderResult) (e : Option String) (id : Nat) :
    (itemStatusIn (s.updateBatchJobItem i st r e) id).isSome =
      (itemStatusIn s id).isSome := by
  rw [itemStatusIn_updateBatchJobItem]
  unfold itemStatusIn
  cases s.items.find? (fun it => it.id == id) <;> rfl

theorem getBatchJob_updateBatchJobStatus (s : Store) (i : Nat) (st : Status)
    (c : Nat) (id : Nat) :
    (s.updateBatchJobStatus i st c).getBatchJob id =
      (s.getBatchJob id).map (updateJobRow i st c) := by
  unfold Store.getBatchJob Store.updateBatchJobStatus
  exact find?_map_fix (updateJobRow i st c) (fun j => j.id == id)
    (fun a => by
      show ((updateJobRow i st c a).id == id) = (a.id == id)
      rw [updateJobRow_id]) s.jobs

theorem jobStatusIn_updateBatchJobStatus (s : Store) (i : Nat) (st : Status)
    (c : Nat) (id : Nat) :
    jobStatusIn (s.updateBatchJobStatus i st c) id =
      (s.getBatchJob id).map (fun j => if j.id == i then st else j.status) := by
  unfold jobStatusIn
  rw [getBatchJob_updateBatchJobStatus, Option.map_map]
  cases s.getBatchJob id with
  | none => rfl
  | some j =>
    simp only [Option.map_some', Function.comp_apply]
    unfold updateJobRow
    split <;> rfl

theorem jobStatusIn_updateBatchJobStatus_self (s : Store) (i : Nat) (st : Status)
    (c : Nat) (h : (s.getBatchJob i).isSome = true) :
    jobStatusIn (s.updateBatchJobStatus i st c) i = some st := by
  rw [jobStatusIn_updateBatchJobStatus]
  cases hf : s.getBatchJob i with
  | none => rw [hf] at h; simp at h
  | some j =>
    have hj := List.find?_some hf
    simp only [beq_iff_eq] at hj
    simp [hj]

theorem jobStatusIn_updateBatchJobStatus_other (s : Store) (i : Nat) (st : Status)
    (c : Nat) (id : Nat) (hne : ¬ id = i) :
    jobStatusIn (s.updateBatchJobStatus i st c) id = jobStatusIn s id := by
  rw [jobStatusIn_updateBatchJobStatus]
  unfold jobStatusIn
  cases hf : s.getBatchJob id with
  | none => rfl
  | some j =>
    have hj := List.find?_some hf
    simp only [beq_iff_eq] at hj
    have hne' : ¬ j.id = i := by rw [hj]; exact hne
    simp [hne']

theorem jobCompletedItemsIn_updateBatchJobStatus_self (s : Store) (i : Nat)
    (st : Status) (c : Nat) (h : (s.getBatchJob i).isSome = true) :
    jobCompletedItemsIn (s.updateBatchJobStatus i st c) i = some c := by
  unfold jobCompletedItemsIn
  rw [getBatchJob_updateBatchJobStatus, Option.map_map]
  cases hf : s.getBatchJob i with
  | none => rw [hf] at h; simp at h
  | some j =>
    have hj := List.find?_some hf
    simp only [beq_iff_eq] at hj
    simp only [Option.map_some', Function.comp_apply]
    unfold updateJobRow
    simp [hj]

theorem getBatchJob_updateBatchJobStatus_isSome (s : Store) (i : Nat)
    (st : Status) (c : Nat) (id : Nat) :
    ((s.updateBatchJobStatus i st c).getBatchJob id).isSome =
      (s.getBatchJob id).isSome := by
  rw [getBatchJob_updateBatchJobStatus]
  cases s.getBatchJob id <;> rfl

theorem getCVText_congr (s s' : Store) (it : BatchJobItem) (h : s.cvs = s'.cvs) :
    getCVText s it = getCVText s' it := by
  unfold getCVText Store.getCV
  rw [h]

theorem itemSucceeds_congr (p : Provider) (s s' : Store) (it : BatchJobItem)
    (h : s.cvs = s'.cvs) : itemSucceeds p s it = itemSucceeds p s' it := by
  unfold itemSucceeds
  rw [getCVText_congr s s' it h]

theorem itemStatusIn_mem_isSome (s : Store) (it : BatchJobItem)
    (h : it ∈ s.items) : (itemStatusIn s it.id).isSome = true := by
  unfold itemStatusIn
  have : (s.items.find? (fun x => x.id == it.id)).isSome = true :=
    List.find?_isSome.mpr ⟨it, h, by simp⟩
  obtain ⟨a, ha⟩ := Option.isSome_iff_exists.mp this
  rw [ha]
  rfl

theorem itemStatusIn_updateBatchJobStatus (s : Store) (i : Nat) (st : Status)
    (c : Nat) (id : Nat) :
    itemStatusIn (s.updateBatchJobStatus i st c) id = itemStatusIn s id := rfl

theorem jobStatusIn_updateBatchJobItem (s : Store) (i : Nat) (st : Status)
    (r : Option ProviderResult) (e : Option String) (id : Nat) :
    jobStatusIn (s.updateBatchJobItem i st r e) id = jobStatusIn s id := rfl

/-! ### Behaviour of the `ProcessJob` item loop -/

theorem processItems_cvs (env : Env) (p : Provider) (jobID : Nat) :
    ∀ (todo : List BatchJobItem) (s : Store) (cnt : Nat),
    (processItems env p jobID s todo cnt).1.cvs = s.cvs := by
  intro todo
  induction todo with
  | nil => intro s cnt; rfl
  | cons item rest ih =>
    intro s cnt
    cases hct : getCVText s item with
    | none =>
      cases hu : env.updateItemOk item.id .failed with
      | true => simp only [processItems, hct, hu, if_true]; rw [ih]; rfl
      | false => simp only [processItems, hct, hu]; rw [if_neg (by simp)]; exact ih s cnt
    | some t =>
      cases hres : p t item.jobDescription with
      | none =>
        cases hu : env.updateItemOk item.id .failed with
        | true => simp only [processItems, hct, hres, hu, if_true]; rw [ih]; rfl
        | false =>
          simp only [processItems, hct, hres, hu]
          rw [if_neg (by simp)]
          exact ih s cnt
      | some result =>
        cases hu : env.updateItemOk item.id .completed with
        | true => simp only [processItems, hct, hres, hu, if_true]; rw [ih]; rfl
        | false =>
          simp only [processItems, hct, hres, hu]
          rw [if_neg (by simp)]
          cases hj : env.updateJobOk jobID .failed <;> simp [hj] <;> rfl

theorem processItems_itemStatusIn_untouched (env : Env) (p : Provider)
    (jobID : Nat) :
    ∀ (todo : List BatchJobItem) (s : Store) (cnt : Nat) (id : Nat),
    (∀ it ∈ todo, ¬ it.id = id) →
    itemStatusIn (processItems env p jobID s todo cnt).1 id = itemStatusIn s id := by
  intro todo
  induction todo with
  | nil => intro s cnt id _; rfl
  | cons item rest ih =>
    intro s cnt id hout
    have hne : ¬ item.id = id := hout item (by simp)
    have hrest : ∀ it ∈ rest, ¬ it.id = id := fun it h => hout it (by simp [h])
    cases hct : getCVText s item with
    | none =>
      cases hu : env.updateItemOk item.id .failed with
      | true =>
        simp only [processItems, hct, hu, if_true]
        rw [ih _ _ _ hrest, itemStatusIn_updateBatchJobItem_other _ _ _ _ _ _ hne]
      | false =>
        simp only [processItems, hct, hu]
        rw [if_neg (by simp)]
        exact ih s cnt id hrest
    | some t =>
      cases hres : p t item.jobDescription with
      | none =>
        cases hu : env.updateItemOk item.id .failed with
        | true =>
          simp only [processItems, hct, hres, hu, if_true]
          rw [ih _ _ _ hrest, itemStatusIn_updateBatchJobItem_other _ _ _ _ _ _ hne]
        | false =>
          simp only [processItems, hct, hres, hu]
          rw [if_neg (by simp)]
          exact ih s cnt id hrest
      | some result =>
        cases hu : env.updateItemOk item.id .completed with
        | true =>
          simp only [processItems, hct, hres, hu, if_true]
          rw [ih _ _ _ hrest, itemStatusIn_updateBatchJobItem_other _ _ _ _ _ _ hne]
        | false =>
          simp only [processItems, hct, hres, hu]
          rw [if_neg (by simp)]
          cases hj : env.updateJobOk jobID .failed <;> simp [hj, itemStatusIn_updateBatchJobStatus]

theorem processItems_jobStatusIn_other (env : Env) (p : Provider) (jobID : Nat) :
    ∀ (todo : List BatchJobItem) (s : Store) (cnt : Nat) (id : Nat),
    ¬ id = jobID →
    jobStatusIn (processItems env p jobID s todo cnt).1 id = jobStatusIn s id := by
  intro todo
  induction todo with
  | nil => intro s cnt id _; rfl
  | cons item rest ih =>
    intro s cnt id hne
    cases hct : getCVText s item with
    | none =>
      cases hu : env.updateItemOk item.id .failed with
      | true =>
        simp only [processItems, hct, hu, if_true]
        rw [ih _ _ _ hne, jobStatusIn_updateBatchJobItem]
      | false =>
        simp only [processItems, hct, hu]
        rw [if_neg (by simp)]
        exact ih s cnt id hne
    | some t =>
      cases hres : p t item.jobDescription with
      | none =>
        cases hu : env.updateItemOk item.id .failed with
        | true =>
          simp only [processItems, hct, hres, hu, if_true]
          rw [ih _ _ _ hne, jobStatusIn_updateBatchJobItem]
        | false =>
          simp only [processItems, hct, hres, hu]
          rw [if_neg (by simp)]
          exact ih s cnt id hne
      | some result =>
        cases hu : env.updateItemOk item.id .completed with
        | true =>
          simp only [processItems, hct, hres, hu, if_true]
          rw [ih _ _ _ hne, jobStatusIn_updateBatchJobItem]
        | false =>
          simp only [processItems, hct, hres, hu]
          rw [if_neg (by simp)]
          cases hj : env.updateJobOk jobID .failed with
          | true => simp [hj, jobStatusIn_updateBatchJobStatus_other _ _ _ _ _ hne]
          | false => simp [hj]

theorem processItems_terminal (env : Env) (p : Provider) (jobID : Nat) :
    ∀ (todo : List BatchJobItem) (s : Store) (cnt : Nat) (id : Nat) (st : Status),
    itemStatusIn s id = some st → st.isTerminal = true →
    ∃ st', itemStatusIn (processItems env p jobID s todo cnt).1 id = some st' ∧
      st'.isTerminal = true := by
  intro todo
  induction todo with
  | nil => intro s cnt id st h hst; exact ⟨st, h, hst⟩
  | cons item rest ih =>
    intro s cnt id st h hst
    have hsome : (itemStatusIn s id).isSome = true := by rw [h]; rfl
    have hupd : ∀ (stN : Status) (r : Option ProviderResult) (e : Option String),
        stN.isTerminal = true →
        ∃ st', itemStatusIn (s.updateBatchJobItem item.id stN r e) id = some st' ∧
          st'.isTerminal = true := by
      intro stN r e hstN
      by_cases hid : item.id = id
      · subst hid
        exact ⟨stN, itemStatusIn_updateBatchJobItem_self _ _ _ _ _ hsome, hstN⟩
      · rw [itemStatusIn_updateBatchJobItem_other _ _ _ _ _ _ hid]
        exact ⟨st, h, hst⟩
    cases hct : getCVText s item with
    | none =>
      cases hu : env.updateItemOk item.id .failed with
      | true =>
        simp only [processItems, hct, hu, if_true]
        obtain ⟨st', h', hst'⟩ := hupd .failed none none rfl
        exact ih _ _ _ _ h' hst'
      | false =>
        simp only [processItems, hct, hu]
        rw [if_neg (by simp)]
        exact ih _ _ _ _ h hst
    | some t =>
      cases hres : p t item.jobDescription with
      | none =>
        cases hu : env.updateItemOk item.id .failed with
        | true =>
          simp only [processItems, hct, hres, hu, if_true]
          obtain ⟨st', h', hst'⟩ := hupd .failed none none rfl
          exact ih _ _ _ _ h' hst'
        | false =>
          simp only [processItems, hct, hres, hu]
          rw [if_neg (by simp)]
          exact ih _ _ _ _ h hst
      | some result =>
        cases hu : env.updateItemOk item.id .completed with
        | true =>
          simp only [processItems, hct, hres, hu, if_true]
          obtain ⟨st', h', hst'⟩ := hupd .completed (some result) none rfl
          exact ih _ _ _ _ h' hst'
        | false =>
          simp only [processItems, hct, hres, hu]
          rw [if_neg (by simp)]
          cases hj : env.updateJobOk jobID .failed with
          | true => exact ⟨st, by simpa [hj, itemStatusIn_updateBatchJobStatus] using h, hst⟩
          | false => exact ⟨st, by simpa [hj] using h, hst⟩

theorem processItems_ok (env : Env) (p : Provider) (jobID : Nat) (s0 : Store) :
    ∀ (todo : List BatchJobItem) (scur : Store) (cnt : Nat),
    scur.cvs = s0.cvs →
    (∀ it ∈ todo, (getCVText s0 it).isSome = true) →
    (∀ it ∈ todo, ∀ st, env.updateItemOk it.id st = true) →
    (todo.map (fun it => it.id)).Nodup →
    (∀ it ∈ todo, (itemStatusIn scur it.id).isSome = true) →
    (processItems env p jobID scur todo cnt).2.2 = none ∧
    (processItems env p jobID scur todo cnt).2.1 =
      cnt + todo.countP (itemSucceeds p s0) ∧
    (processItems env p jobID scur todo cnt).1.jobs = scur.jobs ∧
    (∀ it ∈ todo, itemStatusIn (processItems env p jobID scur todo cnt).1 it.id =
      some (itemOutcome p s0 it)) := by
  intro todo
  induction todo with
  | nil =>
    intro scur cnt _ _ _ _ _
    refine ⟨rfl, by simp [processItems], rfl, ?_⟩
    intro it hit
    exact absurd hit (List.not_mem_nil it)
  | cons item rest ih =>
    intro scur cnt hcvs hcv hui hnd hpres
    have hcv0 : (getCVText s0 item).isSome = true := hcv item (by simp)
    obtain ⟨t, ht⟩ := Option.isSome_iff_exists.mp hcv0
    have hts : getCVText scur item = some t := by
      rw [getCVText_congr scur s0 item hcvs, ht]
    have hndc : (∀ x ∈ rest, ¬ x.id = item.id) ∧
        (rest.map (fun it => it.id)).Nodup := by simpa using hnd
    have hnd' : (rest.map (fun it => it.id)).Nodup := hndc.2
    have hrestne : ∀ it2 ∈ rest, ¬ it2.id = item.id := hndc.1
    cases hres : p t item.jobDescription with
    | none =>
      have hsucc : itemSucceeds p s0 item = false := by
        simp [itemSucceeds, ht, hres]
      have hout : itemOutcome p s0 item = .failed := by
        simp [itemOutcome, hsucc]
      have hu : env.updateItemOk item.id Status.failed = true :=
        hui item (by simp) .failed
      have hstep : processItems env p jobID scur (item :: rest) cnt =
          processItems env p jobID
            (scur.updateBatchJobItem item.id .failed none none) rest cnt := by
        simp only [processItems, hts, hres, hu, if_true]
      obtain ⟨e1, c1, j1, f1⟩ := ih (scur.updateBatchJobItem item.id .failed none none)
        cnt hcvs (fun it h => hcv it (by simp [h])) (fun it h => hui it (by simp [h])) hnd'
        (fun it h => by
          rw [itemStatusIn_updateBatchJobItem_isSome]
          exact hpres it (by simp [h]))
      refine ⟨by rw [hstep]; exact e1, ?_, ?_, ?_⟩
      · rw [hstep, c1]
        simp [List.countP_cons, hsucc]
      · rw [hstep, j1]
        rfl
      · intro it hit
        rcases List.mem_cons.mp hit with heq | hmem
        · subst heq
          rw [hstep, processItems_itemStatusIn_untouched env p jobID rest _ cnt it.id hrestne]
          rw [itemStatusIn_updateBatchJobItem_self _ _ _ _ _ (hpres it (by simp)), hout]
        · rw [hstep]
          exact f1 it hmem
    | some result =>
      have hsucc : itemSucceeds p s0 item = true := by
        simp [itemSucceeds, ht, hres]
      have hout : itemOutcome p s0 item = .completed := by
        simp [itemOutcome, hsucc]
      have hu : env.updateItemOk item.id Status.completed = true :=
        hui item (by simp) .completed
      have hstep : processItems env p jobID scur (item :: rest) cnt =
          processItems env p jobID
            (scur.updateBatchJobItem item.id .completed (some result) none)
            rest (cnt + 1) := by
        simp only [processItems, hts, hres, hu, if_true]
      obtain ⟨e1, c1, j1, f1⟩ := ih
        (scur.updateBatchJobItem item.id .completed (some result) none)
        (cnt + 1) hcvs (fun it h => hcv it (by simp [h]))
        (fun it h => hui it (by simp [h])) hnd'
        (fun it h => by
          rw [itemStatusIn_updateBatchJobItem_isSome]
          exact hpres it (by simp [h]))
      refine ⟨by rw [hstep]; exact e1, ?_, ?_, ?_⟩
      · rw [hstep, c1]
        simp only [List.countP_cons, hsucc, if_true]
        omega
      · rw [hstep, j1]
        rfl
      · intro it hit
        rcases List.mem_cons.mp hit with heq | hmem
        · subst heq
          rw [hstep, processItems_itemStatusIn_untouched env p jobID rest _ _ it.id hrestne]
          rw [itemStatusIn_updateBatchJobItem_self _ _ _ _ _ (hpres it (by simp)), hout]
        · rw [hstep]
          exact f1 it hmem

theorem processItems_abort (env : Env) (p : Provider) (jobID : Nat) (s0 : Store)
    (bad : BatchJobItem) (rest : List BatchJobItem)
    (hbad : itemSucceeds p s0 bad = true)
    (hbadu : env.updateItemOk bad.id .completed = false)
    (hjf : env.updateJobOk jobID .failed = true) :
    ∀ (pre : List BatchJobItem) (scur : Store) (cnt : Nat),
    scur.cvs = s0.cvs →
    (∀ it ∈ pre, ∀ st, env.updateItemOk it.id st = true) →
    (∀ it ∈ pre, ¬ it.id = bad.id) →
    (∀ it ∈ pre, ∀ it2 ∈ rest, ¬ it.id = it2.id) →
    (scur.getBatchJob jobID).isSome = true →
    (processItems env p jobID scur (pre ++ bad :: rest) cnt).2.2 =
      some "update item failed" ∧
    jobStatusIn (processItems env p jobID scur (pre ++ bad :: rest) cnt).1 jobID =
      some .failed ∧
    jobCompletedItemsIn (processItems env p jobID scur (pre ++ bad :: rest) cnt).1
      jobID = some (cnt + pre.countP (itemSucceeds p s0)) ∧
    itemStatusIn (processItems env p jobID scur (pre ++ bad :: rest) cnt).1 bad.id =
      itemStatusIn scur bad.id ∧
    (∀ it2 ∈ rest,
      itemStatusIn (processItems env p jobID scur (pre ++ bad :: rest) cnt).1 it2.id =
        itemStatusIn scur it2.id) := by
  intro pre
  induction pre with
  | nil =>
    intro scur cnt hcvs _ _ _ hjp
    obtain ⟨t, ht⟩ := Option.isSome_iff_exists.mp (by
      unfold itemSucceeds at hbad
      rcases hct : getCVText s0 bad with _ | t0
      · rw [hct] at hbad; exact absurd hbad (by simp)
      · exact (Option.isSome_iff_exists.mpr ⟨t0, hct⟩ :
          (getCVText s0 bad).isSome = true))
    have hts : getCVText scur bad = some t := by
      rw [getCVText_congr scur s0 bad hcvs, ht]
    have hressome : (p t bad.jobDescription).isSome = true := by
      unfold itemSucceeds at hbad
      rw [ht] at hbad
      exact hbad
    obtain ⟨result, hres⟩ := Option.isSome_iff_exists.mp hressome
    have hstep : processItems env p jobID scur ([] ++ bad :: rest) cnt =
        (scur.updateBatchJobStatus jobID .failed cnt, cnt,
          some "update item failed") := by
      simp only [List.nil_append, processItems, hts, hres, hbadu]
      rw [if_neg (by simp), if_pos (by simp [hjf])]
    rw [hstep]
    refine ⟨rfl, ?_, ?_, rfl, fun it2 _ => rfl⟩
    · exact jobStatusIn_updateBatchJobStatus_self scur jobID .failed cnt hjp
    · have := jobCompletedItemsIn_updateBatchJobStatus_self scur jobID .failed cnt hjp
      rw [this]
      simp
  | cons item pre' ih =>
    intro scur cnt hcvs hui hne1 hne2 hjp
    have hbadne : ¬ item.id = bad.id := hne1 item (by simp)
    have hrestne : ∀ it2 ∈ rest, ¬ item.id = it2.id :=
      fun it2 h2 => hne2 item (by simp) it2 h2
    cases hct : getCVText scur item with
    | none =>
      have hu : env.updateItemOk item.id Status.failed = true :=
        hui item (by simp) .failed
      have hsucc : itemSucceeds p s0 item = false := by
        unfold itemSucceeds
        rw [← getCVText_congr scur s0 item hcvs]
        simp [hct]
      have hstep : processItems env p jobID scur ((item :: pre') ++ bad :: rest) cnt =
          processItems env p jobID
            (scur.updateBatchJobItem item.id .failed none none) (pre' ++ bad :: rest)
            cnt := by
        simp only [List.cons_append, processItems, hct, hu, if_true]
        rfl
      obtain ⟨e1, s1c, c1, b1, r1⟩ := ih (scur.updateBatchJobItem item.id .failed none none)
        cnt hcvs (fun it h => hui it (by simp [h]))
        (fun it h => hne1 it (by simp [h]))
        (fun it h => hne2 it (by simp [h])) hjp
      refine ⟨by rw [hstep]; exact e1, by rw [hstep]; exact s1c, ?_, ?_, ?_⟩
      · rw [hstep, c1]
        simp [List.countP_cons, hsucc]
      · rw [hstep, b1, itemStatusIn_updateBatchJobItem_other _ _ _ _ _ _ hbadne]
      · intro it2 h2
        rw [hstep, r1 it2 h2,
          itemStatusIn_updateBatchJobItem_other _ _ _ _ _ _ (hrestne it2 h2)]
    | some t =>
      cases hres : p t item.jobDescription with
      | none =>
        have hu : env.updateItemOk item.id Status.failed = true :=
          hui item (by simp) .failed
        have hsucc : itemSucceeds p s0 item = false := by
          unfold itemSucceeds
          rw [← getCVText_congr scur s0 item hcvs]
          simp [hct, hres]
        have hstep : processItems env p jobID scur ((item :: pre') ++ bad :: rest) cnt =
            processItems env p jobID
              (scur.updateBatchJobItem item.id .failed none none)
              (pre' ++ bad :: rest) cnt := by
          simp only [List.cons_append, processItems, hct, hres, hu, if_true]
          rfl
        obtain ⟨e1, s1c, c1, b1, r1⟩ := ih
          (scur.updateBatchJobItem item.id .failed none none)
          cnt hcvs (fun it h => hui it (by simp [h]))
          (fun it h => hne1 it (by simp [h]))
          (fun it h => hne2 it (by simp [h])) hjp
        refine ⟨by rw [hstep]; exact e1, by rw [hstep]; exact s1c, ?_, ?_, ?_⟩
        · rw [hstep, c1]
          simp [List.countP_cons, hsucc]
        · rw [hstep, b1, itemStatusIn_updateBatchJobItem_other _ _ _ _ _ _ hbadne]
        · intro it2 h2
          rw [hstep, r1 it2 h2,
            itemStatusIn_updateBatchJobItem_other _ _ _ _ _ _ (hrestne it2 h2)]
      | some result =>
        have hu : env.updateItemOk item.id Status.completed = true :=
          hui item (by simp) .completed
        have hsucc : itemSucceeds p s0 item = true := by
          unfold itemSucceeds
          rw [← getCVText_congr scur s0 item hcvs]
          simp [hct, hres]
        have hstep : processItems env p jobID scur ((item :: pre') ++ bad :: rest) cnt =
            processItems env p jobID
              (scur.updateBatchJobItem item.id .completed (some result) none)
              (pre' ++ bad :: rest) (cnt + 1) := by
          simp only [List.cons_append, processItems, hct, hres, hu, if_true]
          rfl
        obtain ⟨e1, s1c, c1, b1, r1⟩ := ih
          (scur.updateBatchJobItem item.id .completed (some result) none)
          (cnt + 1) hcvs (fun it h => hui it (by simp [h]))
          (fun it h => hne1 it (by simp [h]))
          (fun it h => hne2 it (by simp [h])) hjp
        refine ⟨by rw [hstep]; exact e1, by rw [hstep]; exact s1c, ?_, ?_, ?_⟩
        · rw [hstep, c1]
          simp only [List.countP_cons, hsucc, if_true]
          congr 1
          omega
        · rw [hstep, b1, itemStatusIn_updateBatchJobItem_other _ _ _ _ _ _ hbadne]
        · intro it2 h2
          rw [hstep, r1 it2 h2,
            itemStatusIn_updateBatchJobItem_other _ _ _ _ _ _ (hrestne it2 h2)]

theorem getBatchJob_congr (s s' : Store) (id : Nat) (h : s.jobs = s'.jobs) :
    s.getBatchJob id = s'.getBatchJob id := by
  unfold Store.getBatchJob
  rw [h]

/-! ### Claim theorems -/

/-- C2: when the dispatch channel is full, `CreateJob` still persists the
job with status `pending` and completed count 0, drops the enqueue (the
channel is unchanged), and returns the fresh job id with a nil error. -/
theorem C2_createJob_full_channel_drops_enqueue (env : Env) (q : JobQueue)
    (identityID : Option Nat) (totalItems : Nat)
    (hc : env.createJobOk = true)
    (hfull : ¬ q.jobChan.length < q.jobChanCap) :
    (createJob env q identityID totalItems).2.2 = none ∧
    (createJob env q identityID totalItems).2.1 = q.store.nextJobID ∧
    (createJob env q identityID totalItems).1.jobChan = q.jobChan ∧
    (createJob env q identityID totalItems).1.store.jobs =
      q.store.jobs ++
        [{ id := q.store.nextJobID, identityID := identityID, status := .pending,
           totalItems := totalItems, completedItems := 0, completedAt := none }] := by
  simp only [createJob, hc, if_true]
  rw [if_neg hfull]
  exact ⟨trivial, rfl, rfl, rfl⟩

/-- C2 witness: concrete instance with a full (capacity-1) channel. -/
theorem C2_createJob_full_channel_drops_enqueue_witness :
    (createJob
      { provider := none, createJobOk := true, createItemOk := true,
        getItemsOk := true, updateJobOk := fun _ _ => true,
        updateItemOk := fun _ _ => true }
      { store := emptyStore, jobChan := [7], jobChanCap := 1 } none 2).2.2 = none ∧
    (createJob
      { provider := none, createJobOk := true, createItemOk := true,
        getItemsOk := true, updateJobOk := fun _ _ => true,
        updateItemOk := fun _ _ => true }
      { store := emptyStore, jobChan := [7], jobChanCap := 1 } none 2).2.1 = 1 ∧
    (createJob
      { provider := none, createJobOk := true, createItemOk := true,
        getItemsOk := true, updateJobOk := fun _ _ => true,
        updateItemOk := fun _ _ => true }
      { store := emptyStore, jobChan := [7], jobChanCap := 1 } none 2).1.jobChan = [7] ∧
    (createJob
      { provider := none, createJobOk := true, createItemOk := true,
        getItemsOk := true, updateJobOk := fun _ _ => true,
        updateItemOk := fun _ _ => true }
      { store := emptyStore, jobChan := [7], jobChanCap := 1 } none 2).1.store.jobs =
      [{ id := 1, identityID := none, status := .pending,
         totalItems := 2, completedItems := 0, completedAt := none }] :=
  C2_createJob_full_channel_drops_enqueue _ _ none 2 rfl (by decide)

/-- C4: `GetBatchJobStatus` recomputes the completed count from the item
rows in the store (the `Job.completed_items` field is not consulted),
reports `total` as the item count, and derives `progress = completed/total`
with `0.0` for a job with no items. -/
theorem C4_getStatus_counts_items_from_store (env : Env) (s : Store)
    (jobID : Nat) (job : BatchJob)
    (hjob : s.getBatchJob jobID = some job)
    (hgi : env.getItemsOk = true) :
    ∃ r, getBatchJobStatus env s jobID = some r ∧
      r.completed = ((s.getBatchJobItems jobID).filter
        (fun it => it.status == Status.completed)).length ∧
      r.total = (s.getBatchJobItems jobID).length ∧
      ((s.getBatchJobItems jobID).length = 0 → r.progress = 0) ∧
      (0 < (s.getBatchJobItems jobID).length →
        r.progress = (((s.getBatchJobItems jobID).filter
            (fun it => it.status == Status.completed)).length : ℚ) /
          ((s.getBatchJobItems jobID).length : ℚ)) := by
  simp only [getBatchJobStatus, hjob, hgi, if_true]
  refine ⟨_, rfl, rfl, rfl, fun h0 => ?_, fun hpos => ?_⟩
  · simp only [h0]
    rfl
  · simp only [if_pos hpos]

/-- Concrete store for the C4 witness: the job row caches
`completed_items = 7` while the store holds one `completed` item of two. -/
def storeC4 : Store :=
  { jobs := [{ id := 1, identityID := none, status := .processing,
               totalItems := 2, completedItems := 7, completedAt := none }]
    items := [{ id := 1, batchJobID := 1, cvID := none, jobDescription := "a",
                status := .completed, result := none, errorMessage := none },
              { id := 2, batchJobID := 1, cvID := none, jobDescription := "b",
                status := .pending, result := none, errorMessage := none }]
    cvs := []
    nextJobID := 2
    nextItemID := 3 }

/-- An `Env` with no provider and every store call succeeding. -/
def envNoProv : Env :=
  { provider := none
    createJobOk := true
    createItemOk := true
    getItemsOk := true
    updateJobOk := fun _ _ => true
    updateItemOk := fun _ _ => true }

/-- C4 witness: the hypotheses hold for `storeC4` and the conclusion
instantiates to it. -/
theorem C4_getStatus_counts_items_from_store_witness :
    ∃ r, getBatchJobStatus envNoProv storeC4 1 = some r ∧
      r.completed = ((storeC4.getBatchJobItems 1).filter
        (fun it => it.status == Status.completed)).length ∧
      r.total = (storeC4.getBatchJobItems 1).length ∧
      ((storeC4.getBatchJobItems 1).length = 0 → r.progress = 0) ∧
      (0 < (storeC4.getBatchJobItems 1).length →
        r.progress = (((storeC4.getBatchJobItems 1).filter
            (fun it => it.status == Status.completed)).length : ℚ) /
          ((storeC4.getBatchJobItems 1).length : ℚ)) :=
  C4_getStatus_counts_items_from_store envNoProv storeC4 1
    { id := 1, identityID := none, status := .processing,
      totalItems := 2, completedItems := 7, completedAt := none } (by decide) rfl

/-- C6: with no provider configured, `ProcessJob` marks the job `failed`
with completed count 0, returns a non-nil error, and never fetches or
updates the job's items (the item table is untouched). -/
theorem C6_no_provider_fails_job_without_touching_items (env : Env) (s : Store)
    (jobID : Nat)
    (hp : env.provider = none)
    (h1 : env.updateJobOk jobID .processing = true)
    (h2 : env.updateJobOk jobID .failed = true)
    (hjob : (s.getBatchJob jobID).isSome = true) :
    (processJob env s jobID).2 = some "LLM provider not set for batch processing" ∧
    jobStatusIn (processJob env s jobID).1 jobID = some .failed ∧
    jobCompletedItemsIn (processJob env s jobID).1 jobID = some 0 ∧
    (processJob env s jobID).1.items = s.items := by
  have hjob1 : ((s.updateBatchJobStatus jobID .processing 0).getBatchJob jobID).isSome
      = true := by
    rw [getBatchJob_updateBatchJobStatus_isSome]
    exact hjob
  simp only [processJob, h1, if_true, processJobRest, hp, h2]
  refine ⟨by trivial, ?_, ?_, by trivial⟩
  · exact jobStatusIn_updateBatchJobStatus_self _ jobID .failed 0 hjob1
  · exact jobCompletedItemsIn_updateBatchJobStatus_self _ jobID .failed 0 hjob1

/-- Concrete store for the C6 witness: one pending job, one pending item. -/
def storeC6 : Store :=
  { jobs := [{ id := 1, identityID := none, status := .pending,
               totalItems := 1, completedItems := 0, completedAt := none }]
    items := [{ id := 1, batchJobID := 1, cvID := none, jobDescription := "a",
                status := .pending, result := none, errorMessage := none }]
    cvs := []
    nextJobID := 2
    nextItemID := 2 }

/-- C1: when the provider is configured, the item fetch succeeds, every
item's CV text resolves and every store write succeeds, `ProcessJob` drives
every item, returns no error, and marks the job `completed` with the count
of provider-successful items — even when some or all items fail at the
provider; each item ends `completed` on provider success and `failed`
otherwise. -/
theorem C1_processJob_completes_despite_item_failures (env : Env) (s : Store)
    (jobID : Nat) (p : Provider)
    (hp : env.provider = some p)
    (hgi : env.getItemsOk = true)
    (hcv : ∀ it ∈ s.getBatchJobItems jobID, (getCVText s it).isSome = true)
    (hui : ∀ it ∈ s.getBatchJobItems jobID, ∀ st, env.updateItemOk it.id st = true)
    (huj : ∀ st, env.updateJobOk jobID st = true)
    (hnd : ((s.getBatchJobItems jobID).map (fun it => it.id)).Nodup)
    (hjob : (s.getBatchJob jobID).isSome = true) :
    (processJob env s jobID).2 = none ∧
    jobStatusIn (processJob env s jobID).1 jobID = some .completed ∧
    jobCompletedItemsIn (processJob env s jobID).1 jobID =
      some ((s.getBatchJobItems jobID).countP (itemSucceeds p s)) ∧
    ∀ it ∈ s.getBatchJobItems jobID,
      itemStatusIn (processJob env s jobID).1 it.id = some (itemOutcome p s it) := by
  have h1 : env.updateJobOk jobID .processing = true := huj .processing
  have h2 : env.updateJobOk jobID .completed = true := huj .completed
  obtain ⟨e1, c1, j1, f1⟩ := processItems_ok env p jobID s
    ((s.updateBatchJobStatus jobID .processing 0).getBatchJobItems jobID)
    (s.updateBatchJobStatus jobID .processing 0) 0 rfl hcv hui hnd
    (fun it h => itemStatusIn_mem_isSome _ it (List.mem_of_mem_filter h))
  rcases hr : processItems env p jobID (s.updateBatchJobStatus jobID .processing 0)
      ((s.updateBatchJobStatus jobID .processing 0).getBatchJobItems jobID) 0 with
    ⟨s2, cnt2, err2⟩
  rw [hr] at e1 c1 j1 f1
  simp only at e1 c1 j1 f1
  subst e1
  have hPJ : processJob env s jobID =
      (s2.updateBatchJobStatus jobID .completed cnt2, none) := by
    simp only [processJob, h1, if_true, processJobRest, hp, hgi, hr, h2]
  have hjob2 : (s2.getBatchJob jobID).isSome = true := by
    rw [getBatchJob_congr s2 (s.updateBatchJobStatus jobID .processing 0) jobID j1,
      getBatchJob_updateBatchJobStatus_isSome]
    exact hjob
  refine ⟨by rw [hPJ], ?_, ?_, ?_⟩
  · rw [hPJ]
    exact jobStatusIn_updateBatchJobStatus_self s2 jobID .completed cnt2 hjob2
  · rw [hPJ]
    have := jobCompletedItemsIn_updateBatchJobStatus_self s2 jobID .completed cnt2 hjob2
    rw [this, c1, Nat.zero_add]
    rfl
  · intro it hit
    rw [hPJ]
    show itemStatusIn (s2.updateBatchJobStatus jobID .completed cnt2) it.id =
      some (itemOutcome p s it)
    rw [itemStatusIn_updateBatchJobStatus]
    exact f1 it hit

/-- Provider for the C1 witness: fails exactly on job description `d2`. -/
def pC1 : Provider := fun _ d => if d == "d2" then none else some ⟨1, [], "out"⟩

/-- Environment for the C1 witness: provider `pC1`, all store calls
succeed. -/
def envC1 : Env :=
  { provider := some pC1
    createJobOk := true
    createItemOk := true
    getItemsOk := true
    updateJobOk := fun _ _ => true
    updateItemOk := fun _ _ => true }

/-- Store for the C1 witness: one job with three pending items `d1 d2 d3`,
none of which references a CV row. -/
def storeC1 : Store :=
  { jobs := [{ id := 1, identityID := none, status := .pending,
               totalItems := 3, completedItems := 0, completedAt := none }]
    items := [{ id := 1, batchJobID := 1, cvID := none, jobDescription := "d1",
                status := .pending, result := none, errorMessage := none },
              { id := 2, batchJobID := 1, cvID := none, jobDescription := "d2",
                status := .pending, result := none, errorMessage := none },
              { id := 3, batchJobID := 1, cvID := none, jobDescription := "d3",
                status := .pending, result := none, errorMessage := none }]
    cvs := []
    nextJobID := 2
    nextItemID := 4 }

/-- C1 witness: three items, provider fails only on item 2 — the job ends
`completed` with count 2, item 2 `failed`, items 1 and 3 `completed`. -/
theorem C1_processJob_completes_despite_item_failures_witness :
    (processJob envC1 storeC1 1).2 = none ∧
    jobStatusIn (processJob envC1 storeC1 1).1 1 = some .completed ∧
    jobCompletedItemsIn (processJob envC1 storeC1 1).1 1 = some 2 ∧
    itemStatusIn (processJob envC1 storeC1 1).1 1 = some .completed ∧
    itemStatusIn (processJob envC1 storeC1 1).1 2 = some .failed ∧
    itemStatusIn (processJob envC1 storeC1 1).1 3 = some .completed := by
  obtain ⟨h1, h2, h3, h4⟩ := C1_processJob_completes_despite_item_failures
    envC1 storeC1 1 pC1 rfl rfl (by decide) (by decide) (fun st => rfl)
    (by decide) (by decide)
  refine ⟨h1, h2, h3.trans (by decide), ?_, ?_, ?_⟩
  · exact (h4 ⟨1, 1, none, "d1", .pending, none, none⟩ (by decide)).trans (by decide)
  · exact (h4 ⟨2, 1, none, "d2", .pending, none, none⟩ (by decide)).trans (by decide)
  · exact (h4 ⟨3, 1, none, "d3", .pending, none, none⟩ (by decide)).trans (by decide)

/-- C9: when the store write that would mark a provider-successful item
`completed` fails, `ProcessJob` marks the whole job `failed` with the count
of items completed so far, returns the store error, and does not touch the
failed item or any remaining item. -/
theorem C9_completed_write_failure_aborts_job (env : Env) (s : Store)
    (jobID : Nat) (p : Provider) (pre : List BatchJobItem) (bad : BatchJobItem)
    (rest : List BatchJobItem)
    (hp : env.provider = some p)
    (hgi : env.getItemsOk = true)
    (hsplit : s.getBatchJobItems jobID = pre ++ bad :: rest)
    (hbad : itemSucceeds p s bad = true)
    (hbadu : env.updateItemOk bad.id .completed = false)
    (hproc : env.updateJobOk jobID .processing = true)
    (hjf : env.updateJobOk jobID .failed = true)
    (hui : ∀ it ∈ pre, ∀ st, env.updateItemOk it.id st = true)
    (hne1 : ∀ it ∈ pre, ¬ it.id = bad.id)
    (hne2 : ∀ it ∈ pre, ∀ it2 ∈ rest, ¬ it.id = it2.id)
    (hjob : (s.getBatchJob jobID).isSome = true) :
    (processJob env s jobID).2 = some "update item failed" ∧
    jobStatusIn (processJob env s jobID).1 jobID = some .failed ∧
    jobCompletedItemsIn (processJob env s jobID).1 jobID =
      some (pre.countP (itemSucceeds p s)) ∧
    itemStatusIn (processJob env s jobID).1 bad.id = itemStatusIn s bad.id ∧
    ∀ it2 ∈ rest,
      itemStatusIn (processJob env s jobID).1 it2.id = itemStatusIn s it2.id := by
  have hjob1 : ((s.updateBatchJobStatus jobID .processing 0).getBatchJob jobID).isSome
      = true := by
    rw [getBatchJob_updateBatchJobStatus_isSome]
    exact hjob
  have hsplit1 : (s.updateBatchJobStatus jobID .processing 0).getBatchJobItems jobID =
      pre ++ bad :: rest := hsplit
  obtain ⟨e1, s1c, c1, b1, r1⟩ := processItems_abort env p jobID s bad rest hbad hbadu
    hjf pre (s.updateBatchJobStatus jobID .processing 0) 0 rfl hui hne1 hne2 hjob1
  rcases hr : processItems env p jobID (s.updateBatchJobStatus jobID .processing 0)
      (pre ++ bad :: rest) 0 with ⟨s2, cnt2, err2⟩
  rw [hr] at e1 s1c c1 b1 r1
  simp only at e1 s1c c1 b1 r1
  subst e1
  have hPJ : processJob env s jobID = (s2, some "update item failed") := by
    simp only [processJob, hproc, if_true, processJobRest, hp, hgi, hsplit1, hr]
  refine ⟨by rw [hPJ], ?_, ?_, ?_, ?_⟩
  · rw [hPJ]
    exact s1c
  · rw [hPJ]
    rw [c1]
    simp
  · rw [hPJ]
    exact b1
  · intro it2 h2
    rw [hPJ]
    exact r1 it2 h2

/-- Provider for the C9 witness: always succeeds. -/
def pC9 : Provider := fun _ _ => some ⟨1, [], "out"⟩

/-- Environment for the C9 witness: the write marking item 2 `completed`
fails; every other store call succeeds. -/
def envC9 : Env :=
  { provider := some pC9
    createJobOk := true
    createItemOk := true
    getItemsOk := true
    updateJobOk := fun _ _ => true
    updateItemOk := fun i st =>
      match i, st with
      | 2, .completed => false
      | _, _ => true }

/-- Store for the C9 witness: one job with three pending items. -/
def storeC9 : Store :=
  { jobs := [{ id := 1, identityID := none, status := .pending,
               totalItems := 3, completedItems := 0, completedAt := none }]
    items := [{ id := 1, batchJobID := 1, cvID := none, jobDescription := "d1",
                status := .pending, result := none, errorMessage := none },
              { id := 2, batchJobID := 1, cvID := none, jobDescription := "d2",
                status := .pending, result := none, errorMessage := none },
              { id := 3, batchJobID := 1, cvID := none, jobDescription := "d3",
                status := .pending, result := none, errorMessage := none }]
    cvs := []
    nextJobID := 2
    nextItemID := 4 }

/-- C9 witness: item 1 completes, the `completed` write for item 2 fails —
the job is marked `failed` with count 1, the error is returned, and items 2
and 3 stay `pending`. -/
theorem C9_completed_write_failure_aborts_job_witness :
    (processJob envC9 storeC9 1).2 = some "update item failed" ∧
    jobStatusIn (processJob envC9 storeC9 1).1 1 = some .failed ∧
    jobCompletedItemsIn (processJob envC9 storeC9 1).1 1 = some 1 ∧
    itemStatusIn (processJob envC9 storeC9 1).1 2 = some .pending ∧
    itemStatusIn (processJob envC9 storeC9 1).1 3 = some .pending := by
  obtain ⟨h1, h2, h3, h4, h5⟩ := C9_completed_write_failure_aborts_job
    envC9 storeC9 1 pC9
    [⟨1, 1, none, "d1", .pending, none, none⟩]
    ⟨2, 1, none, "d2", .pending, none, none⟩
    [⟨3, 1, none, "d3", .pending, none, none⟩]
    rfl rfl (by decide) (by decide) rfl rfl rfl (by decide) (by decide)
    (by decide) (by decide)
  refine ⟨h1, h2, h3.trans (by decide), h4.trans (by decide), ?_⟩
  exact (h5 ⟨3, 1, none, "d3", .pending, none, none⟩ (by decide)).trans (by decide)

theorem processJobRest_itemStatusIn_terminal (env : Env) (s : Store)
    (jobID : Nat) (id : Nat) (st : Status)
    (h : itemStatusIn s id = some st) (hst : st.isTerminal = true) :
    ∃ st', itemStatusIn (processJobRest env s jobID).1 id = some st' ∧
      st'.isTerminal = true := by
  unfold processJobRest
  cases hp : env.provider with
  | none =>
    cases hj : env.updateJobOk jobID .failed with
    | true => exact ⟨st, by simpa [hj, itemStatusIn_updateBatchJobStatus] using h, hst⟩
    | false => exact ⟨st, by simpa [hj] using h, hst⟩
  | some p =>
    cases hgi : env.getItemsOk with
    | false =>
      cases hj : env.updateJobOk jobID .failed with
      | true => exact ⟨st, by simpa [hgi, hj, itemStatusIn_updateBatchJobStatus] using h, hst⟩
      | false => exact ⟨st, by simpa [hgi, hj] using h, hst⟩
    | true =>
      simp only [hgi, if_true]
      obtain ⟨st', h', hst'⟩ := processItems_terminal env p jobID
        (s.getBatchJobItems jobID) s 0 id st h hst
      rcases hr : processItems env p jobID s (s.getBatchJobItems jobID) 0 with
        ⟨s2, cnt2, err2⟩
      rw [hr] at h'
      simp only at h'
      cases err2 with
      | none =>
        cases hj : env.updateJobOk jobID .completed with
        | true =>
          exact ⟨st', by simpa [hj, itemStatusIn_updateBatchJobStatus] using h', hst'⟩
        | false => exact ⟨st', by simpa [hj] using h', hst'⟩
      | some e => exact ⟨st', by simpa using h', hst'⟩

theorem processJob_itemStatusIn_terminal (env : Env) (s : Store) (jobID : Nat)
    (id : Nat) (st : Status)
    (h : itemStatusIn s id = some st) (hst : st.isTerminal = true) :
    ∃ st', itemStatusIn (processJob env s jobID).1 id = some st' ∧
      st'.isTerminal = true := by
  unfold processJob
  cases hj : env.updateJobOk jobID .processing with
  | true =>
    simp only [if_true]
    exact processJobRest_itemStatusIn_terminal env _ jobID id st
      (by rw [itemStatusIn_updateBatchJobStatus]; exact h) hst
  | false =>
    simp only [Bool.false_eq_true, if_false]
    exact ⟨st, h, hst⟩

theorem processJobRest_jobStatusIn_other (env : Env) (s : Store) (jobID : Nat)
    (id : Nat) (hne : ¬ id = jobID) :
    jobStatusIn (processJobRest env s jobID).1 id = jobStatusIn s id := by
  unfold processJobRest
  cases hp : env.provider with
  | none =>
    cases hj : env.updateJobOk jobID .failed with
    | true => simp [hj, jobStatusIn_updateBatchJobStatus_other _ _ _ _ _ hne]
    | false => simp [hj]
  | some p =>
    cases hgi : env.getItemsOk with
    | false =>
      cases hj : env.updateJobOk jobID .failed with
      | true => simp [hgi, hj, jobStatusIn_updateBatchJobStatus_other _ _ _ _ _ hne]
      | false => simp [hgi, hj]
    | true =>
      simp only [hgi, if_true]
      have hloop := processItems_jobStatusIn_other env p jobID
        (s.getBatchJobItems jobID) s 0 id hne
      rcases hr : processItems env p jobID s (s.getBatchJobItems jobID) 0 with
        ⟨s2, cnt2, err2⟩
      rw [hr] at hloop
      simp only at hloop
      cases err2 with
      | none =>
        cases hj : env.updateJobOk jobID .completed with
        | true =>
          simpa [hj, jobStatusIn_updateBatchJobStatus_other _ _ _ _ _ hne] using hloop
        | false => simpa [hj] using hloop
      | some e => simpa using hloop

theorem processJob_jobStatusIn_other (env : Env) (s : Store) (jobID : Nat)
    (id : Nat) (hne : ¬ id = jobID) :
    jobStatusIn (processJob env s jobID).1 id = jobStatusIn s id := by
  unfold processJob
  cases hj : env.updateJobOk jobID .processing with
  | true =>
    simp only [if_true]
    rw [processJobRest_jobStatusIn_other env _ jobID id hne,
      jobStatusIn_updateBatchJobStatus_other _ _ _ _ _ hne]
  | false => simp

theorem jobStatusIn_createBatchJob (s : Store) (identityID : Option Nat)
    (totalItems : Nat) (id : Nat) (st : Status)
    (h : jobStatusIn s id = some st) :
    jobStatusIn (s.createBatchJob identityID totalItems).1 id = some st := by
  unfold jobStatusIn Store.getBatchJob at h ⊢
  rw [show (s.createBatchJob identityID totalItems).1.jobs = s.jobs ++
      [{ id := s.nextJobID, identityID := identityID, status := .pending,
         totalItems := totalItems, completedItems := 0, completedAt := none }] from rfl]
  rw [List.find?_append]
  cases hf : s.jobs.find? (fun j => j.id == id) with
  | none => rw [hf] at h; simp at h
  | some j =>
    rw [hf] at h
    simpa using h

theorem itemStatusIn_createBatchJobItem (s : Store) (batchJobID : Nat)
    (cvID : Option Nat) (jobDescription : String) (id : Nat) (st : Status)
    (h : itemStatusIn s id = some st) :
    itemStatusIn (s.createBatchJobItem batchJobID cvID jobDescription).1 id =
      some st := by
  unfold itemStatusIn at h ⊢
  rw [show (s.createBatchJobItem batchJobID cvID jobDescription).1.items =
      s.items ++
      [{ id := s.nextItemID, batchJobID := batchJobID, cvID := cvID,
         jobDescription := jobDescription, status := .pending, result := none,
         errorMessage := none }] from rfl]
  rw [List.find?_append]
  cases hf : s.items.find? (fun it => it.id == id) with
  | none => rw [hf] at h; simp at h
  | some a =>
    rw [hf] at h
    simpa using h

/-- C3 amended: under any engine operation, an item in a terminal status
stays in a terminal status; and a job's status is unchanged by every
operation except a `ProcessJob` invocation on that very job id — so a job
can leave a terminal status only when `ProcessJob` is invoked again on it. -/
theorem C3_amended_terminal_preservation (q : JobQueue) (op : Op) :
    (∀ id st, itemStatusIn q.store id = some st → st.isTerminal = true →
      ∃ st', itemStatusIn (applyOp q op).store id = some st' ∧
        st'.isTerminal = true) ∧
    (∀ id st, jobStatusIn q.store id = some st → st.isTerminal = true →
      (∀ env, ¬ op = Op.processJob env id) →
      jobStatusIn (applyOp q op).store id = some st) := by
  constructor
  · intro id st h hst
    cases op with
    | createJob env iid n =>
      cases hc : env.createJobOk with
      | true =>
        refine ⟨st, ?_, hst⟩
        simp only [applyOp, createJob, hc, if_true]
        exact h
      | false =>
        refine ⟨st, ?_, hst⟩
        simp only [applyOp, createJob, hc]
        rw [if_neg (by simp)]
        exact h
    | addJobItem env b c d =>
      cases hc : env.createItemOk with
      | true =>
        refine ⟨st, ?_, hst⟩
        simp only [applyOp, addJobItem, hc, if_true]
        exact itemStatusIn_createBatchJobItem q.store b c d id st h
      | false =>
        refine ⟨st, ?_, hst⟩
        simp only [applyOp, addJobItem, hc]
        rw [if_neg (by simp)]
        exact h
    | processJob env j =>
      exact processJob_itemStatusIn_terminal env q.store j id st h hst
    | getStatus env j => exact ⟨st, h, hst⟩
  · intro id st h hst hnp
    cases op with
    | createJob env iid n =>
      cases hc : env.createJobOk with
      | true =>
        simp only [applyOp, createJob, hc, if_true]
        exact jobStatusIn_createBatchJob q.store iid n id st h
      | false =>
        simp only [applyOp, createJob, hc]
        rw [if_neg (by simp)]
        exact h
    | addJobItem env b c d =>
      cases hc : env.createItemOk with
      | true =>
        simp only [applyOp, addJobItem, hc, if_true]
        exact h
      | false =>
        simp only [applyOp, addJobItem, hc]
        rw [if_neg (by simp)]
        exact h
    | processJob env j =>
      have hne : ¬ id = j := by
        intro heq
        exact hnp env (by rw [heq])
      show jobStatusIn (processJob env q.store j).1 id = some st
      rw [processJob_jobStatusIn_other env q.store j id hne]
      exact h
    | getStatus env j => exact h

/-- Store for the C3/C7-amended witnesses: job 1 `completed` (with
`completed_at` set) and item 9 `failed`. -/
def storeTermW : Store :=
  { jobs := [{ id := 1, identityID := none, status := .completed,
               totalItems := 1, completedItems := 1, completedAt := some () }]
    items := [{ id := 9, batchJobID := 1, cvID := none, jobDescription := "a",
                status := .failed, result := none, errorMessage := none }]
    cvs := []
    nextJobID := 2
    nextItemID := 10 }

/-- C3 amended witness: an `AddJobItem` call leaves the terminal item 9
terminal and the terminal job 1 exactly `completed`. -/
theorem C3_amended_terminal_preservation_witness :
    (∃ st', itemStatusIn (applyOp
        { store := storeTermW, jobChan := [], jobChanCap := 100 }
        (Op.addJobItem envNoProv 1 none "x")).store 9 = some st' ∧
      st'.isTerminal = true) ∧
    jobStatusIn (applyOp
        { store := storeTermW, jobChan := [], jobChanCap := 100 }
        (Op.addJobItem envNoProv 1 none "x")).store 1 = some .completed := by
  have h := C3_amended_terminal_preservation
    { store := storeTermW, jobChan := [], jobChanCap := 100 }
    (Op.addJobItem envNoProv 1 none "x")
  exact ⟨h.1 9 .failed (by decide) (by decide),
    h.2 1 .completed (by decide) (by decide) (fun env hh => by cases hh)⟩

/-- The C7 invariant: a job row's `completed_at` is non-null exactly when
its status is terminal. -/
def jobInv (s : Store) : Prop :=
  ∀ j ∈ s.jobs, (j.completedAt ≠ none ↔ j.status.isTerminal = true)

theorem jobInv_updateBatchJobStatus_terminal (s : Store) (i : Nat) (st : Status)
    (c : Nat) (hst : st.isTerminal = true) (hinv : jobInv s) :
    jobInv (s.updateBatchJobStatus i st c) := by
  intro j' hj'
  obtain ⟨j, hj, rfl⟩ := List.mem_map.mp hj'
  unfold updateJobRow
  cases hid : j.id == i with
  | true => simp [hst]
  | false =>
    simp only [Bool.false_eq_true, if_false]
    exact hinv j hj

theorem jobInv_updateBatchJobStatus_nonterminal (s : Store) (i : Nat)
    (st : Status) (c : Nat) (hst : st.isTerminal = false)
    (hpend : ∀ j ∈ s.jobs, j.id = i → j.status.isTerminal = false)
    (hinv : jobInv s) : jobInv (s.updateBatchJobStatus i st c) := by
  intro j' hj'
  obtain ⟨j, hj, rfl⟩ := List.mem_map.mp hj'
  unfold updateJobRow
  cases hid : j.id == i with
  | true =>
    have hidp : j.id = i := by simpa using hid
    have hterm : j.status.isTerminal = false := hpend j hj hidp
    have hnone : j.completedAt = none := by
      by_contra hne
      have := (hinv j hj).mp hne
      rw [hterm] at this
      exact absurd this (by simp)
    simp [hst, hnone]
  | false =>
    simp only [Bool.false_eq_true, if_false]
    exact hinv j hj

theorem processItems_jobInv (env : Env) (p : Provider) (jobID : Nat) :
    ∀ (todo : List BatchJobItem) (s : Store) (cnt : Nat),
    jobInv s → jobInv (processItems env p jobID s todo cnt).1 := by
  intro todo
  induction todo with
  | nil => intro s cnt hinv; exact hinv
  | cons item rest ih =>
    intro s cnt hinv
    cases hct : getCVText s item with
    | none =>
      cases hu : env.updateItemOk item.id .failed with
      | true =>
        simp only [processItems, hct, hu, if_true]
        exact ih _ _ hinv
      | false =>
        simp only [processItems, hct, hu]
        rw [if_neg (by simp)]
        exact ih _ _ hinv
    | some t =>
      cases hres : p t item.jobDescription with
      | none =>
        cases hu : env.updateItemOk item.id .failed with
        | true =>
          simp only [processItems, hct, hres, hu, if_true]
          exact ih _ _ hinv
        | false =>
          simp only [processItems, hct, hres, hu]
          rw [if_neg (by simp)]
          exact ih _ _ hinv
      | some result =>
        cases hu : env.updateItemOk item.id .completed with
        | true =>
          simp only [processItems, hct, hres, hu, if_true]
          exact ih _ _ hinv
        | false =>
          simp only [processItems, hct, hres, hu]
          rw [if_neg (by simp)]
          cases hj : env.updateJobOk jobID .failed with
          | true =>
            simp only [hj, if_true]
            exact jobInv_updateBatchJobStatus_terminal s jobID .failed cnt rfl hinv
          | false =>
            simp only [hj]
            rw [if_neg (by simp)]
            exact hinv

theorem processJobRest_jobInv (env : Env) (s : Store) (jobID : Nat)
    (hinv : jobInv s) : jobInv (processJobRest env s jobID).1 := by
  unfold processJobRest
  cases hp : env.provider with
  | none =>
    cases hj : env.updateJobOk jobID .failed with
    | true =>
      simp only [hj, if_true]
      exact jobInv_updateBatchJobStatus_terminal s jobID .failed 0 rfl hinv
    | false =>
      simp only [hj]
      rw [if_neg (by simp)]
      exact hinv
  | some p =>
    cases hgi : env.getItemsOk with
    | false =>
      cases hj : env.updateJobOk jobID .failed with
      | true =>
        simp only [hgi, hj, if_true]
        rw [if_neg (by simp)]
        exact jobInv_updateBatchJobStatus_terminal s jobID .failed 0 rfl hinv
      | false =>
        simp only [hgi, hj]
        rw [if_neg (by simp), if_neg (by simp)]
        exact hinv
    | true =>
      simp only [hgi, if_true]
      have hloop := processItems_jobInv env p jobID (s.getBatchJobItems jobID) s 0 hinv
      rcases hr : processItems env p jobID s (s.getBatchJobItems jobID) 0 with
        ⟨s2, cnt2, err2⟩
      rw [hr] at hloop
      simp only at hloop
      cases err2 with
      | none =>
        cases hj : env.updateJobOk jobID .completed with
        | true =>
          simp only [hj, if_true]
          exact jobInv_updateBatchJobStatus_terminal s2 jobID .completed cnt2 rfl hloop
        | false =>
          simp only [hj]
          rw [if_neg (by simp)]
          exact hloop
      | some e => exact hloop

theorem processJob_jobInv (env : Env) (s : Store) (jobID : Nat)
    (hpend : ∀ j ∈ s.jobs, j.id = jobID → j.status.isTerminal = false)
    (hinv : jobInv s) : jobInv (processJob env s jobID).1 := by
  unfold processJob
  cases hj : env.updateJobOk jobID .processing with
  | true =>
    simp only [if_true]
    exact processJobRest_jobInv env _ jobID
      (jobInv_updateBatchJobStatus_nonterminal s jobID .processing 0 rfl hpend hinv)
  | false =>
    simp only [Bool.false_eq_true, if_false]
    exact hinv

theorem jobInv_createBatchJob (s : Store) (identityID : Option Nat)
    (totalItems : Nat) (hinv : jobInv s) :
    jobInv (s.createBatchJob identityID totalItems).1 := by
  intro j hj
  rw [show (s.createBatchJob identityID totalItems).1.jobs = s.jobs ++
      [{ id := s.nextJobID, identityID := identityID, status := .pending,
         totalItems := totalItems, completedItems := 0, completedAt := none }]
    from rfl] at hj
  rcases List.mem_append.mp hj with hmem | hnew
  · exact hinv j hmem
  · have hje : j = ⟨s.nextJobID, identityID, .pending, totalItems, 0, none⟩ := by
      simpa using hnew
    subst hje
    simp [Status.isTerminal]

/-- C7 amended: the biconditional `completed_at ≠ null ↔ status terminal`
is preserved by every engine operation provided `ProcessJob` is only
invoked on jobs that are not already terminal (as the worker loop does,
processing each job once); and `UpdateJobStatus` sets `completed_at` on the
targeted row exactly when the new status is terminal, leaving the old value
in place otherwise. -/
theorem C7_amended_completedAt_iff_terminal (q : JobQueue) (op : Op)
    (hinv : jobInv q.store)
    (hproc : ∀ env jobId, op = Op.processJob env jobId →
      ∀ j ∈ q.store.jobs, j.id = jobId → j.status.isTerminal = false) :
    jobInv (applyOp q op).store ∧
    (∀ (j : BatchJob) (i : Nat) (st : Status) (c : Nat), j.id = i →
      (updateJobRow i st c j).completedAt =
        (if st.isTerminal then some () else j.completedAt)) := by
  constructor
  · cases op with
    | createJob env iid n =>
      cases hc : env.createJobOk with
      | true =>
        simp only [applyOp, createJob, hc, if_true]
        exact jobInv_createBatchJob q.store iid n hinv
      | false =>
        simp only [applyOp, createJob, hc]
        rw [if_neg (by simp)]
        exact hinv
    | addJobItem env b c d =>
      cases hc : env.createItemOk with
      | true =>
        simp only [applyOp, addJobItem, hc, if_true]
        exact fun j hj => hinv j hj
      | false =>
        simp only [applyOp, addJobItem, hc]
        rw [if_neg (by simp)]
        exact hinv
    | processJob env j =>
      exact processJob_jobInv env q.store j (hproc env j rfl) hinv
    | getStatus env j => exact hinv
  · intro j i st c hid
    unfold updateJobRow
    simp [hid]

/-- C7 amended witness: submitting a job to the empty engine preserves the
`completed_at ↔ terminal` biconditional. -/
theorem C7_amended_completedAt_iff_terminal_witness :
    jobInv (applyOp initialQueue (Op.createJob envNoProv none 1)).store ∧
    (∀ (j : BatchJob) (i : Nat) (st : Status) (c : Nat), j.id = i →
      (updateJobRow i st c j).completedAt =
        (if st.isTerminal then some () else j.completedAt)) :=
  C7_amended_completedAt_iff_terminal initialQueue (Op.createJob envNoProv none 1)
    (fun j hj => absurd hj (List.not_mem_nil j))
    (fun env jobId hh => nomatch hh)

/-- Provider for the repeated-`ProcessJob` counterexample runs: always
succeeds. -/
def pAlways : Provider := fun _ _ => some ⟨1, [], "out"⟩

/-- Environment in which every store call succeeds and the provider always
succeeds. -/
def envAllOk : Env :=
  { provider := some pAlways
    createJobOk := true
    createItemOk := true
    getItemsOk := true
    updateJobOk := fun _ _ => true
    updateItemOk := fun _ _ => true }

/-- Environment with no provider in which the write marking a job `failed`
fails (every other store call succeeds): `ProcessJob` then strands the job
in `processing`. -/
def envStuck : Env :=
  { provider := none
    createJobOk := true
    createItemOk := true
    getItemsOk := true
    updateJobOk := fun _ st =>
      match st with
      | .failed => false
      | _ => true
    updateItemOk := fun _ _ => true }

/-- Create one empty job and process it: the job ends `completed`. -/
def seqTerminal : List Op :=
  [Op.createJob envAllOk none 0, Op.processJob envAllOk 1]

/-- The same run followed by a second `ProcessJob` on the now-terminal job,
during which the provider is unset and the `failed` write errors out. -/
def seqReprocess : List Op :=
  seqTerminal ++ [Op.processJob envStuck 1]

/-- C3 counterexample: after `seqTerminal` job 1 is `completed` (terminal);
the single further engine operation `ProcessJob(1)` moves it back to
`processing` — a terminal-to-non-terminal transition of a reachable job. -/
theorem C3_counterexample_reprocess_leaves_terminal :
    jobStatusIn (runOps initialQueue seqTerminal).store 1 = some .completed ∧
    jobStatusIn (runOps initialQueue seqReprocess).store 1 = some .processing := by
  constructor <;> decide

/-- C7 counterexample: after `seqReprocess` job 1 has status `processing`
(non-terminal) while its `completed_at` is still non-null — the
biconditional fails on a reachable store. -/
theorem C7_counterexample_processing_with_completedAt :
    jobStatusIn (runOps initialQueue seqReprocess).store 1 = some .processing ∧
    jobCompletedAtIn (runOps initialQueue seqReprocess).store 1 = some (some ()) := by
  constructor <;> decide

/-! ### Rate limiter lemmas and claims -/

theorem minFloat_le_left (a b : ℚ) : minFloat a b ≤ a := by
  unfold minFloat
  split
  · exact le_refl a
  · linarith [not_lt.mp (by assumption)]

theorem minFloat_nonneg (a b : ℚ) (ha : 0 ≤ a) (hb : 0 ≤ b) :
    0 ≤ minFloat a b := by
  unfold minFloat
  split
  · exact ha
  · exact hb

theorem sweep_buckets_sub (rl : RateLimiter) (now : ℚ) (k : String)
    (b : TokenBucket) (h : (rl.sweep now).buckets k = some b) :
    rl.buckets k = some b := by
  unfold RateLimiter.sweep at h
  split at h
  · unfold RateLimiter.cleanupOldBuckets at h
    simp only at h
    cases hk : rl.buckets k with
    | none => rw [hk] at h; exact absurd h (by simp)
    | some b0 =>
      rw [hk] at h
      simp only at h
      split at h
      · exact absurd h (by simp)
      · exact h
  · exact h

theorem sweep_burst (rl : RateLimiter) (now : ℚ) :
    (rl.sweep now).burst = rl.burst := by
  unfold RateLimiter.sweep
  split <;> rfl

theorem sweep_rps (rl : RateLimiter) (now : ℚ) :
    (rl.sweep now).rps = rl.rps := by
  unfold RateLimiter.sweep
  split <;> rfl

theorem setBucket_burst (rl : RateLimiter) (ip : String) (b : TokenBucket) :
    (rl.setBucket ip b).burst = rl.burst := rfl

theorem setBucket_rps (rl : RateLimiter) (ip : String) (b : TokenBucket) :
    (rl.setBucket ip b).rps = rl.rps := rfl

theorem allow_burst (rl : RateLimiter) (ip : String) (now : ℚ) :
    ((rl.allow ip now).1).burst = rl.burst := by
  unfold RateLimiter.allow
  dsimp only
  split <;> rw [setBucket_burst, sweep_burst]

theorem allow_rps (rl : RateLimiter) (ip : String) (now : ℚ) :
    ((rl.allow ip now).1).rps = rl.rps := by
  unfold RateLimiter.allow
  dsimp only
  split <;> rw [setBucket_rps, sweep_rps]

theorem setBucket_buckets_self (rl : RateLimiter) (ip : String)
    (b : TokenBucket) : (rl.setBucket ip b).buckets ip = some b := by
  unfold RateLimiter.setBucket
  simp

theorem setBucket_lastGC (rl : RateLimiter) (ip : String) (b : TokenBucket) :
    (rl.setBucket ip b).lastGC = rl.lastGC := rfl

theorem setBucket_cleanup (rl : RateLimiter) (ip : String) (b : TokenBucket) :
    (rl.setBucket ip b).cleanup = rl.cleanup := rfl

theorem allow_eval_pos (rl : RateLimiter) (ip : String) (now tok tLast tk : ℚ)
    (hsweep : ¬ rl.cleanup < now - rl.lastGC)
    (hfind : rl.buckets ip = some ⟨tok, tLast⟩)
    (htok : minFloat (rl.burst : ℚ) (tok + (now - tLast) * rl.rps) = tk)
    (hge : 1 ≤ tk) :
    rl.allow ip now = (rl.setBucket ip ⟨tk - 1, now⟩, true) := by
  unfold RateLimiter.allow RateLimiter.sweep
  rw [if_neg hsweep]
  dsimp only
  unfold RateLimiter.getBucket
  rw [hfind]
  unfold RateLimiter.refillTokens
  dsimp only
  rw [htok, if_pos hge]

theorem allow_eval_neg (rl : RateLimiter) (ip : String) (now tok tLast tk : ℚ)
    (hsweep : ¬ rl.cleanup < now - rl.lastGC)
    (hfind : rl.buckets ip = some ⟨tok, tLast⟩)
    (htok : minFloat (rl.burst : ℚ) (tok + (now - tLast) * rl.rps) = tk)
    (hlt : ¬ 1 ≤ tk) :
    rl.allow ip now = (rl.setBucket ip ⟨tk, now⟩, false) := by
  unfold RateLimiter.allow RateLimiter.sweep
  rw [if_neg hsweep]
  dsimp only
  unfold RateLimiter.getBucket
  rw [hfind]
  unfold RateLimiter.refillTokens
  dsimp only
  rw [htok, if_neg hlt]

theorem allow_eval_fresh_pos (rl : RateLimiter) (ip : String) (now tk : ℚ)
    (hsweep : ¬ rl.cleanup < now - rl.lastGC)
    (hfind : rl.buckets ip = none)
    (htok : minFloat (rl.burst : ℚ) ((rl.burst : ℚ) + (now - now) * rl.rps) = tk)
    (hge : 1 ≤ tk) :
    rl.allow ip now = (rl.setBucket ip ⟨tk - 1, now⟩, true) := by
  unfold RateLimiter.allow RateLimiter.sweep
  rw [if_neg hsweep]
  dsimp only
  unfold RateLimiter.getBucket
  rw [hfind]
  unfold RateLimiter.refillTokens
  dsimp only
  rw [htok, if_pos hge]

theorem allowN_succ (rl : RateLimiter) (ip : String) (now : ℚ) (n : Nat) :
    rl.allowN ip now (n + 1) =
      (((rl.allow ip now).1.allowN ip now n).1,
        (rl.allow ip now).2 :: ((rl.allow ip now).1.allowN ip now n).2) := rfl

/-- A limiter with the default one-hour cleanup window, explicit bucket
map, rate, burst and `lastGC` — the shape every `Allow` call preserves. -/
def mkRL (f : String → Option TokenBucket) (R : ℚ) (B : Int) (t : ℚ) :
    RateLimiter :=
  { buckets := f, rps := R, burst := B, cleanup := 3600, lastGC := t }

/-- Draining an integer-valued bucket: starting from a bucket holding `m`
tokens (refilled at the current instant, no sweep pending), `m + 1`
immediate calls return `m` trues then one false, leaving an empty bucket. -/
theorem allowN_drain (R : ℚ) (B : Int) (t : ℚ) (ip : String) :
    ∀ (m : Nat) (f : String → Option TokenBucket),
    f ip = some ⟨(m : ℚ), t⟩ → (m : ℚ) ≤ (B : ℚ) →
    ((mkRL f R B t).allowN ip t (m + 1)).2 = List.replicate m true ++ [false] ∧
    ((mkRL f R B t).allowN ip t (m + 1)).1.buckets ip = some ⟨0, t⟩ ∧
    ((mkRL f R B t).allowN ip t (m + 1)).1.rps = R ∧
    ((mkRL f R B t).allowN ip t (m + 1)).1.burst = B ∧
    ((mkRL f R B t).allowN ip t (m + 1)).1.cleanup = 3600 ∧
    ((mkRL f R B t).allowN ip t (m + 1)).1.lastGC = t := by
  intro m
  induction m with
  | zero =>
    intro f hf hm
    have hB0 : (0 : ℚ) ≤ (B : ℚ) := by simpa using hm
    have hallow : (mkRL f R B t).allow ip t =
        ((mkRL f R B t).setBucket ip ⟨0, t⟩, false) := by
      apply allow_eval_neg _ ip t 0 t 0
      · show ¬ (3600 : ℚ) < t - t
        rw [sub_self]
        norm_num
      · simpa using hf
      · show minFloat (B : ℚ) (0 + (t - t) * R) = 0
        rw [sub_self, zero_mul, add_zero]
        unfold minFloat
        rw [if_neg (not_lt.mpr hB0)]
      · norm_num
    rw [show (0 + 1 : Nat) = 1 from rfl, allowN_succ, hallow]
    refine ⟨rfl, ?_, rfl, rfl, rfl, rfl⟩
    show ((mkRL f R B t).setBucket ip ⟨0, t⟩).buckets ip = some ⟨0, t⟩
    exact setBucket_buckets_self _ ip _
  | succ m ih =>
    intro f hf hm
    have hmc : ((m : ℚ) + 1) = ((m + 1 : Nat) : ℚ) := by push_cast; ring
    have hm' : (m : ℚ) ≤ (B : ℚ) := by
      rw [← hmc] at hm
      linarith
    have hcast : ((m + 1 : Nat) : ℚ) - 1 = (m : ℚ) := by push_cast; ring
    have hallow : (mkRL f R B t).allow ip t =
        (mkRL (fun k => if k == ip then some ⟨(m : ℚ), t⟩ else f k) R B t,
          true) := by
      have h1 := allow_eval_pos (mkRL f R B t) ip t
        ((m + 1 : Nat) : ℚ) t ((m + 1 : Nat) : ℚ) ?_ ?_ ?_ ?_
      · rw [h1]
        unfold RateLimiter.setBucket mkRL
        simp only [hcast]
      · show ¬ (3600 : ℚ) < t - t
        rw [sub_self]
        norm_num
      · exact hf
      · show minFloat (B : ℚ) (((m + 1 : Nat) : ℚ) + (t - t) * R) = _
        rw [sub_self, zero_mul, add_zero]
        unfold minFloat
        rw [if_neg (not_lt.mpr hm)]
      · rw [← hmc]
        linarith [Nat.cast_nonneg (α := ℚ) m]
    obtain ⟨ih1, ih2, ih3, ih4, ih5, ih6⟩ := ih
      (fun k => if k == ip then some ⟨(m : ℚ), t⟩ else f k) (by simp) hm'
    rw [allowN_succ, hallow]
    refine ⟨?_, ih2, ih3, ih4, ih5, ih6⟩
    simp only [ih1]
    rw [List.replicate_succ]
    rfl

/-- C5 amended: for burst `B ≥ 1` and rate `R > 0`, `B` consecutive
immediate `Allow` calls on a fresh limiter all return true and the
`(B+1)`-th returns false; and provided the refill interval `d = 1/R`
(characterised by `d·R = 1`) does not exceed the one-hour cleanup
retention window, after `d` seconds exactly one further call returns true
(the next immediate call returns false). -/
theorem C5_amended_token_bucket_drain_and_refill (R : ℚ) (B : Nat) (t : ℚ)
    (ip : String) (d : ℚ)
    (hR : 0 < R) (hB : 1 ≤ B) (hd : d * R = 1) (hd0 : 0 ≤ d)
    (hdGC : d ≤ 3600) :
    ((newRateLimiter R (B : Int) t).allowN ip t (B + 1)).2 =
      List.replicate B true ++ [false] ∧
    (((newRateLimiter R (B : Int) t).allowN ip t (B + 1)).1.allow ip (t + d)).2 =
      true ∧
    ((((newRateLimiter R (B : Int) t).allowN ip t (B + 1)).1.allow ip
      (t + d)).1.allow ip (t + d)).2 = false := by
  have hBQ : (((B : Int) : ℚ)) = (B : ℚ) := by push_cast; ring
  have hBq1 : (1 : ℚ) ≤ ((B : Int) : ℚ) := by
    rw [hBQ]
    exact_mod_cast hB
  have hBq0 : (0 : ℚ) ≤ ((B : Int) : ℚ) := by linarith
  have hsw0 : ¬ (3600 : ℚ) < t - t := by
    rw [sub_self]
    norm_num
  have hcastB : ((B : Int) : ℚ) - 1 = ((B - 1 : Nat) : ℚ) := by
    rw [Nat.cast_sub hB, Nat.cast_one, hBQ]
  have hnew : newRateLimiter R (B : Int) t = mkRL (fun _ => none) R (B : Int) t :=
    rfl
  have hallow1 : (mkRL (fun _ => none) R (B : Int) t).allow ip t =
      (mkRL (fun k => if k == ip then some ⟨((B - 1 : Nat) : ℚ), t⟩
          else (fun _ => none : String → Option TokenBucket) k) R (B : Int) t,
        true) := by
    have h1 := allow_eval_fresh_pos (mkRL (fun _ => none) R (B : Int) t) ip t
      ((B : Int) : ℚ) hsw0 rfl ?_ hBq1
    · rw [h1]
      unfold RateLimiter.setBucket mkRL
      simp only [hcastB]
    · show minFloat ((B : Int) : ℚ) (((B : Int) : ℚ) + (t - t) * R) = _
      rw [sub_self, zero_mul, add_zero]
      unfold minFloat
      rw [if_neg (lt_irrefl _)]
  have hmB : ((B - 1 : Nat) : ℚ) ≤ ((B : Int) : ℚ) := by
    rw [hBQ]
    exact_mod_cast Nat.sub_le B 1
  obtain ⟨d1, d2, d3, d4, d5, d6⟩ := allowN_drain R (B : Int) t ip (B - 1)
    (fun k => if k == ip then some ⟨((B - 1 : Nat) : ℚ), t⟩
      else (fun _ => none : String → Option TokenBucket) k) (by simp) hmB
  have hBrw : B + 1 = ((B - 1) + 1) + 1 := by omega
  have hL2 : ((newRateLimiter R (B : Int) t).allowN ip t (B + 1)).1 =
      ((mkRL (fun k => if k == ip then some ⟨((B - 1 : Nat) : ℚ), t⟩
          else (fun _ => none : String → Option TokenBucket) k) R (B : Int)
        t).allowN ip t ((B - 1) + 1)).1 := by
    rw [hnew, hBrw, allowN_succ, hallow1]
  have hres : ((newRateLimiter R (B : Int) t).allowN ip t (B + 1)).2 =
      List.replicate B true ++ [false] := by
    rw [hnew, hBrw, allowN_succ, hallow1]
    show true :: _ = _
    rw [d1]
    conv_rhs => rw [show B = (B - 1) + 1 from by omega, List.replicate_succ]
    rfl
  have hdd : t + d - t = d := by ring
  have hallow2 : (((newRateLimiter R (B : Int) t).allowN ip t (B + 1)).1).allow
      ip (t + d) =
      ((((newRateLimiter R (B : Int) t).allowN ip t (B + 1)).1).setBucket ip
        ⟨1 - 1, t + d⟩, true) := by
    apply allow_eval_pos _ ip (t + d) 0 t 1
    · rw [hL2, d5, d6, hdd]
      exact not_lt.mpr hdGC
    · rw [hL2]
      exact d2
    · rw [hL2, d4, d3, hdd, zero_add, hd]
      unfold minFloat
      rw [if_neg (not_lt.mpr hBq1)]
    · exact le_refl 1
  have hfind3 : ((((newRateLimiter R (B : Int) t).allowN ip t
      (B + 1)).1).setBucket ip ⟨1 - 1, t + d⟩).buckets ip =
      some ⟨0, t + d⟩ := by
    rw [setBucket_buckets_self]
    norm_num
  have hallow3 : (((((newRateLimiter R (B : Int) t).allowN ip t
      (B + 1)).1).setBucket ip ⟨1 - 1, t + d⟩).allow ip (t + d)).2 = false := by
    have h3 := allow_eval_neg
      ((((newRateLimiter R (B : Int) t).allowN ip t (B + 1)).1).setBucket ip
        ⟨1 - 1, t + d⟩) ip (t + d) 0 (t + d) 0 ?_ hfind3 ?_ (by norm_num)
    · rw [h3]
    · rw [setBucket_cleanup, setBucket_lastGC, hL2, d5, d6, hdd]
      exact not_lt.mpr hdGC
    · rw [show (0 : ℚ) + (t + d - (t + d)) *
          ((((newRateLimiter R (B : Int) t).allowN ip t (B + 1)).1).setBucket ip
            ⟨1 - 1, t + d⟩).rps = 0 from by ring]
      rw [show ((((newRateLimiter R (B : Int) t).allowN ip t
          (B + 1)).1).setBucket ip ⟨1 - 1, t + d⟩).burst =
        (B : Int) from by rw [setBucket_burst, hL2, d4]]
      unfold minFloat
      rw [if_neg (not_lt.mpr hBq0)]
  refine ⟨hres, ?_, ?_⟩
  · rw [hallow2]
  · rw [hallow2]
    exact hallow3

/-- C5 amended witness: burst 2, rate 1, wait `d = 1` second. -/
theorem C5_amended_token_bucket_drain_and_refill_witness :
    ((newRateLimiter 1 (2 : Int) 0).allowN "1.2.3.4" 0 (2 + 1)).2 =
      List.replicate 2 true ++ [false] ∧
    (((newRateLimiter 1 (2 : Int) 0).allowN "1.2.3.4" 0 (2 + 1)).1.allow
      "1.2.3.4" (0 + 1)).2 = true ∧
    ((((newRateLimiter 1 (2 : Int) 0).allowN "1.2.3.4" 0 (2 + 1)).1.allow
      "1.2.3.4" (0 + 1)).1.allow "1.2.3.4" (0 + 1)).2 = false :=
  C5_amended_token_bucket_drain_and_refill 1 2 0 "1.2.3.4" 1 (by norm_num)
    (by norm_num) (mul_one 1) (by norm_num) (by norm_num)

/-- C5 counterexample: with burst 2 and rate `R = 1/7200` (one token per
two hours), the three immediate calls behave as claimed, but after waiting
`1/R = 7200` seconds the opportunistic sweep (one-hour retention) has
deleted the idle bucket, so the client re-enters with a fresh full-burst
bucket and TWO further calls return true — not "exactly one". -/
theorem C5_counterexample_sweep_refills_burst :
    ((newRateLimiter (1/7200) 2 0).allowN "1.2.3.4" 0 3).2 =
      [true, true, false] ∧
    (((newRateLimiter (1/7200) 2 0).allowN "1.2.3.4" 0 3).1.allow "1.2.3.4"
      (0 + 1/(1/7200))).2 = true ∧
    ((((newRateLimiter (1/7200) 2 0).allowN "1.2.3.4" 0 3).1.allow "1.2.3.4"
      (0 + 1/(1/7200))).1.allow "1.2.3.4" (0 + 1/(1/7200))).2 = true := by
  refine ⟨?_, ?_, ?_⟩ <;>
    norm_num [RateLimiter.allowN, RateLimiter.allow, RateLimiter.sweep,
      RateLimiter.getBucket, RateLimiter.refillTokens, RateLimiter.setBucket,
      newRateLimiter, minFloat, RateLimiter.cleanupOldBuckets]

/-- C8 amended: with a non-negative burst capacity and a non-negative
rate, every `Allow` call preserves `0 ≤ tokens ≤ burst` (together with
`lastRefill ≤ now`) for every bucket in the map; the invariant holds for a
fresh limiter and is stable under letting the clock advance. -/
theorem C8_amended_tokens_within_bounds (rl : RateLimiter) (ip : String)
    (now : ℚ)
    (hb : 0 ≤ rl.burst) (hr : 0 ≤ rl.rps) (hinv : BucketInv rl now) :
    BucketInv (rl.allow ip now).1 now ∧
    (∀ (R : ℚ) (B : Int) (t : ℚ), BucketInv (newRateLimiter R B t) t) ∧
    (∀ (rl' : RateLimiter) (t1 t2 : ℚ), BucketInv rl' t1 → t1 ≤ t2 →
      BucketInv rl' t2) := by
  refine ⟨?_, ?_, ?_⟩
  · have hb' : (0 : ℚ) ≤ (rl.burst : ℚ) := by exact_mod_cast hb
    have hinv1 : BucketInv (rl.sweep now) now := by
      intro k b h
      have := hinv k b (sweep_buckets_sub rl now k b h)
      rw [sweep_burst]
      exact this
    have hbucket : 0 ≤ ((rl.sweep now).getBucket ip now).tokens ∧
        ((rl.sweep now).getBucket ip now).tokens ≤ (rl.burst : ℚ) ∧
        ((rl.sweep now).getBucket ip now).lastRefill ≤ now := by
      unfold RateLimiter.getBucket
      cases hk : (rl.sweep now).buckets ip with
      | some b =>
        have := hinv1 ip b hk
        rw [sweep_burst] at this
        exact this
      | none =>
        refine ⟨?_, ?_, le_refl now⟩
        · rw [sweep_burst]; exact hb'
        · rw [sweep_burst]
    have htok0 : 0 ≤ (rl.sweep now).refillTokens ((rl.sweep now).getBucket ip now) now := by
      unfold RateLimiter.refillTokens
      apply minFloat_nonneg
      · rw [sweep_burst]; exact hb'
      · have h1 := hbucket.1
        have h3 := hbucket.2.2
        have : 0 ≤ (now - ((rl.sweep now).getBucket ip now).lastRefill) *
            (rl.sweep now).rps := by
          apply mul_nonneg
          · linarith
          · rw [sweep_rps]; exact hr
        linarith
    have htokB : (rl.sweep now).refillTokens ((rl.sweep now).getBucket ip now) now ≤
        (rl.burst : ℚ) := by
      unfold RateLimiter.refillTokens
      rw [show ((rl.sweep now).burst : ℚ) = (rl.burst : ℚ) by rw [sweep_burst]]
      exact minFloat_le_left _ _
    have hset : ∀ (tok : ℚ), 0 ≤ tok → tok ≤ (rl.burst : ℚ) →
        BucketInv ((rl.sweep now).setBucket ip ⟨tok, now⟩) now := by
      intro tok h0 hB k b h
      unfold RateLimiter.setBucket at h
      simp only at h
      rw [setBucket_burst, sweep_burst]
      by_cases hki : (k == ip) = true
      · rw [if_pos hki] at h
        have hbv : b = ⟨tok, now⟩ := by simpa using h.symm
        subst hbv
        exact ⟨h0, hB, le_refl now⟩
      · rw [if_neg hki] at h
        have := hinv1 k b h
        rw [sweep_burst] at this
        exact this
    unfold RateLimiter.allow
    dsimp only
    split
    · rename_i hcond
      exact hset _ (by linarith) (by linarith [htokB])
    · rename_i hcond
      exact hset _ htok0 htokB
  · intro R B t k b h
    exact absurd h (by simp [newRateLimiter])
  · intro rl' t1 t2 hinv' hle k b h
    obtain ⟨h1, h2, h3⟩ := hinv' k b h
    exact ⟨h1, h2, le_trans h3 hle⟩

/-- C8 amended witness: one `Allow` call on a fresh limiter with burst 2
and rate 1 keeps every bucket within bounds. -/
theorem C8_amended_tokens_within_bounds_witness :
    BucketInv ((newRateLimiter 1 2 0).allow "1.2.3.4" 0).1 0 ∧
    (∀ (R : ℚ) (B : Int) (t : ℚ), BucketInv (newRateLimiter R B t) t) ∧
    (∀ (rl' : RateLimiter) (t1 t2 : ℚ), BucketInv rl' t1 → t1 ≤ t2 →
      BucketInv rl' t2) :=
  C8_amended_tokens_within_bounds (newRateLimiter 1 2 0) "1.2.3.4" 0
    (by decide) (by decide)
    (fun k b h => absurd h (by simp [newRateLimiter]))

/-- C8 counterexample: with a negative rate (`NewRateLimiter(-1, 1)`) and
elapsed time 2, the bucket refill drives the token count to −2 < 0, so the
invariant `0 ≤ tokens` fails even though the burst is non-negative and all
elapsed times are non-negative. -/
theorem C8_counterexample_negative_rate_breaks_lower_bound :
    (((newRateLimiter (-1) 1 0).allow "a" 0).1.allow "a" 2).1.buckets "a" =
      some ⟨-2, 2⟩ ∧ ((-2 : ℚ) < 0) := by
  constructor
  · norm_num [RateLimiter.allow, RateLimiter.sweep, RateLimiter.getBucket,
      RateLimiter.refillTokens, RateLimiter.setBucket, newRateLimiter, minFloat,
      RateLimiter.cleanupOldBuckets]
  · norm_num

/-! ### Worker-pool claims -/

theorem activeJobs_length_le (s : EngineState) :
    (activeJobs s).length ≤ s.workers.length :=
  List.length_filterMap_le _ _

/-- C10 amended: with `Start(n)` the pool always holds exactly `n` workers
and at most `n` jobs are actively being driven at any reachable state; the
number of job rows merely *in status* `processing` is not so bounded,
because a job abandoned after an infrastructure failure stays `processing`
(see the counterexample). -/
theorem C10_amended_at_most_n_actively_driven (n : Nat) (s : EngineState)
    (h : EngineReachable n s) :
    s.workers.length = n ∧ (activeJobs s).length ≤ n := by
  have hlen : s.workers.length = n := by
    unfold EngineReachable at h
    induction h with
    | refl => simp [startEngine]
    | tail hrs hstep ih =>
      cases hstep with
      | createJob env iid m => exact ih
      | addJobItem env b c ds => exact ih
      | pickup k env j rest h1 h2 h3 =>
        exact (List.length_set _ _ _).trans ih
      | pickupFail k env j rest h1 h2 h3 => exact ih
      | finish k env j h1 =>
        exact (List.length_set _ _ _).trans ih
  exact ⟨hlen, le_trans (activeJobs_length_le s) (le_of_eq hlen)⟩

/-- C10 amended witness: the freshly started single-worker engine. -/
theorem C10_amended_at_most_n_actively_driven_witness :
    (startEngine 1).workers.length = 1 ∧
    (activeJobs (startEngine 1)).length ≤ 1 :=
  C10_amended_at_most_n_actively_driven 1 (startEngine 1)
    Relation.ReflTransGen.refl

/-- State after submitting the first job to a single-worker engine. -/
def c10s1 : EngineState :=
  ⟨(createJob envAllOk (startEngine 1).q none 1).1, (startEngine 1).workers⟩

/-- State after submitting the second job. -/
def c10s2 : EngineState :=
  ⟨(createJob envAllOk c10s1.q none 1).1, c10s1.workers⟩

/-- State after the single worker picks up job 1 under `envStuck`
(job 1 is now `processing`). -/
def c10s3 : EngineState :=
  ⟨{ c10s2.q with jobChan := [2]
                  store := c10s2.q.store.updateBatchJobStatus 1 .processing 0 },
    c10s2.workers.set 0 (.busy 1 envStuck)⟩

/-- State after the worker finishes job 1: no provider is configured and
the `failed` write errors out, so job 1 stays `processing` forever. -/
def c10s4 : EngineState :=
  ⟨{ c10s3.q with store := (processJobRest envStuck c10s3.q.store 1).1 },
    c10s3.workers.set 0 .idle⟩

/-- State after the worker picks up job 2 (job 2 is now `processing` too,
while job 1 is still stranded in `processing`). -/
def c10s5 : EngineState :=
  ⟨{ c10s4.q with jobChan := []
                  store := c10s4.q.store.updateBatchJobStatus 2 .processing 0 },
    c10s4.workers.set 0 (.busy 2 envAllOk)⟩

/-- C10 counterexample: with a single worker (`N = 1`), a reachable state
has TWO jobs simultaneously in status `processing`: job 1 was stranded in
`processing` by an infrastructure failure (mark-`failed` write failed) and
the worker then drove job 2 into `processing`. -/
theorem C10_counterexample_two_processing_jobs_one_worker :
    EngineReachable 1 c10s5 ∧ c10s5.workers.length = 1 ∧
    countProcessing c10s5.q.store = 2 := by
  refine ⟨?_, by decide, by decide⟩
  have h1 : EngineStep (startEngine 1) c10s1 :=
    EngineStep.createJob (startEngine 1) envAllOk none 1
  have h2 : EngineStep c10s1 c10s2 :=
    EngineStep.createJob c10s1 envAllOk none 1
  have h3 : EngineStep c10s2 c10s3 :=
    EngineStep.pickup c10s2 0 envStuck 1 [2] rfl rfl rfl
  have h4 : EngineStep c10s3 c10s4 :=
    EngineStep.finish c10s3 0 envStuck 1 rfl
  have h5 : EngineStep c10s4 c10s5 :=
    EngineStep.pickup c10s4 0 envAllOk 2 [] rfl rfl rfl
  exact Relation.ReflTransGen.tail (Relation.ReflTransGen.tail
    (Relation.ReflTransGen.tail (Relation.ReflTransGen.tail
      (Relation.ReflTransGen.tail Relation.ReflTransGen.refl h1) h2) h3) h4) h5

/-- C6 witness: one pending job with one pending item, no provider. -/
theorem C6_no_provider_fails_job_without_touching_items_witness :
    (processJob envNoProv storeC6 1).2 =
      some "LLM provider not set for batch processing" ∧
    jobStatusIn (processJob envNoProv storeC6 1).1 1 = some .failed ∧
    jobCompletedItemsIn (processJob envNoProv storeC6 1).1 1 = some 0 ∧
    (processJob envNoProv storeC6 1).1.items = storeC6.items :=
  C6_no_provider_fails_job_without_touching_items envNoProv storeC6 1
    rfl rfl rfl (by decide)

end VibeCV
